import Mathlib

/-!
Verification development for the `sky` AWS-provisioning utility
(`canvas.py`, `sky/compute.py`).

Python strings whose internal structure matters (splitting, case mapping,
regular-expression matching, lexicographic comparison) are embedded as
`List Char`; strings used only as opaque identifiers, tags or error codes
are embedded as Lean `String`.  Python exceptions are embedded as `Except`
results, the unbounded `while` loops as fuel-indexed recursions, and the
third-party boto/AWS calls as oracle functions supplied to the embedded
functions.  Side effects that matter to the claims (AWS API invocations,
list mutation, the module-level default-argument list) are made explicit:
API invocations become event traces and mutable lists become explicitly
threaded state.
-/

/-- Lexicographic (code-point) order on character lists: the embedding of
Python's string comparison used by `sorted` in `compute.py`. -/
def lexLe : List Char → List Char → Bool
  | [], _ => true
  | _ :: _, [] => false
  | a :: as, b :: bs =>
    if a.toNat < b.toNat then true
    else if b.toNat < a.toNat then false
    else lexLe as bs

theorem lexLe_refl (a : List Char) : lexLe a a = true := by
  induction a with
  | nil => rfl
  | cons c cs ih => simp [lexLe, ih]

theorem lexLe_total (a b : List Char) : lexLe a b = true ∨ lexLe b a = true := by
  induction a generalizing b with
  | nil => left; rfl
  | cons c cs ih =>
    cases b with
    | nil => right; rfl
    | cons d ds =>
      rcases Nat.lt_trichotomy c.toNat d.toNat with h | h | h
      · left; simp [lexLe, h]
      · rcases ih ds with h' | h'
        · left; simp [lexLe, h, h']
        · right; simp [lexLe, h.symm, h']
      · right; simp [lexLe, h, Nat.lt_asymm h]

theorem lexLe_trans {a b c : List Char} (h1 : lexLe a b = true)
    (h2 : lexLe b c = true) : lexLe a c = true := by
  induction a generalizing b c with
  | nil => rfl
  | cons x xs ih =>
    cases b with
    | nil => simp [lexLe] at h1
    | cons y ys =>
      cases c with
      | nil => simp [lexLe] at h2
      | cons z zs =>
        simp only [lexLe] at h1 h2 ⊢
        by_cases hxy : x.toNat < y.toNat
        · by_cases hyz : y.toNat < z.toNat
          · rw [if_pos (show x.toNat < z.toNat by omega)]
          · by_cases hzy : z.toNat < y.toNat
            · rw [if_neg hyz, if_pos hzy] at h2
              exact absurd h2 (by simp)
            · rw [if_pos (show x.toNat < z.toNat by omega)]
        · by_cases hyx : y.toNat < x.toNat
          · rw [if_neg hxy, if_pos hyx] at h1
            exact absurd h1 (by simp)
          · rw [if_neg hxy, if_neg hyx] at h1
            by_cases hyz : y.toNat < z.toNat
            · rw [if_pos (show x.toNat < z.toNat by omega)]
            · by_cases hzy : z.toNat < y.toNat
              · rw [if_neg hyz, if_pos hzy] at h2
                exact absurd h2 (by simp)
              · rw [if_neg hyz, if_neg hzy] at h2
                rw [if_neg (show ¬ x.toNat < z.toNat by omega),
                    if_neg (show ¬ z.toNat < x.toNat by omega)]
                exact ih h1 h2

/-- Embedding of Python `str.split(sep)` for a one-character separator. -/
def splitOnChar (sep : Char) : List Char → List (List Char)
  | [] => [[]]
  | c :: cs =>
    let rest := splitOnChar sep cs
    if c = sep then [] :: rest
    else
      match rest with
      | [] => [[c]]
      | r :: rs => (c :: r) :: rs

/-! ## canvas.py: `main` (claim C7) -/

/-- The Django settings module as `canvas.main` reads it:
`settings.DATABASES['default']['ENGINE']`. -/
structure DjangoSettings where
  default_database_engine : String
deriving DecidableEq, Repr

/-- AWS service interactions performed by `canvas.main` after the engine
check. -/
inductive MainEvent
  | connectEC2
  | getAllZones
  | connectRDS
deriving DecidableEq, Repr

/-- The database engines `canvas.main` accepts (canvas.py lines 154-157). -/
def SUPPORTED_ENGINES : List String :=
  ["django.db.backends.postgresql_psycopg2"
  ,"django.db.backends.mysql"
  ,"django.db.backends.sqlite3"
  ,"django.db.backends.oracle"]

/-- `canvas.main` from the point where the settings module has been
imported: the engine check (`sys.exit(1)` embedded as `Except.error 1`),
then the EC2 and RDS connections.  The returned event list records the AWS
service interactions performed. -/
def canvas_main (settings : DjangoSettings) : Except Nat Unit × List MainEvent :=
  let engine := settings.default_database_engine
  if engine ∉ SUPPORTED_ENGINES then
    (Except.error 1, [])
  else
    (Except.ok (), [MainEvent.connectEC2, MainEvent.getAllZones, MainEvent.connectRDS])

/-- C7: for settings whose default database ENGINE is not one of the four
supported engines, `main` exits with status 1 before connecting to any AWS
service; for the four supported engines it proceeds to connect to EC2 and
RDS. -/
theorem canvas_main_engine_check (settings : DjangoSettings) :
    (settings.default_database_engine ∉ SUPPORTED_ENGINES →
      (canvas_main settings).1 = Except.error 1 ∧ (canvas_main settings).2 = []) ∧
    (settings.default_database_engine ∈ SUPPORTED_ENGINES →
      (canvas_main settings).1 = Except.ok () ∧
      MainEvent.connectEC2 ∈ (canvas_main settings).2 ∧
      MainEvent.connectRDS ∈ (canvas_main settings).2) := by
  constructor
  · intro h
    simp [canvas_main, h]
  · intro h
    simp [canvas_main, h]

theorem canvas_main_engine_check_witness :
    ((canvas_main ⟨"sqlite3"⟩).1 = Except.error 1 ∧ (canvas_main ⟨"sqlite3"⟩).2 = []) ∧
    ((canvas_main ⟨"django.db.backends.mysql"⟩).1 = Except.ok () ∧
      MainEvent.connectEC2 ∈ (canvas_main ⟨"django.db.backends.mysql"⟩).2 ∧
      MainEvent.connectRDS ∈ (canvas_main ⟨"django.db.backends.mysql"⟩).2) :=
  ⟨(canvas_main_engine_check ⟨"sqlite3"⟩).1 (by decide),
   (canvas_main_engine_check ⟨"django.db.backends.mysql"⟩).2 (by decide)⟩

/-! ## compute.py: `create_nat_instances` (claim C8) -/

/-- A boto VPC subnet, restricted to the fields `compute.py` reads. -/
structure Subnet where
  id : String
  availability_zone : List Char
  cidr_block : List Char
deriving DecidableEq, Repr

/-- `sorted(subnets, key=lambda x: x.availability_zone)`: Python's stable
sort by availability zone, embedded as insertion sort (stable for a total
preorder, hence extensionally equal to Python's stable Timsort). -/
def sortedByAZ (subnets : List Subnet) : List Subnet :=
  List.insertionSort
    (fun a b => lexLe a.availability_zone b.availability_zone = true) subnets

/-- `compute.create_nat_instances` (lines 279-292), with the call to
`create_nat_instance` abstracted as the function argument `mk` (note the
source passes `name=None, security_groups=None, image_id=None` for every
pair, so `mk` depends only on the two subnets).  The Python `raise
RuntimeError` is embedded as `Except.error`. -/
def create_nat_instances {α : Type} (mk : Subnet → Subnet → α)
    (public_subnets private_subnets : List Subnet) : Except String (List α) :=
  if ¬ public_subnets.length = private_subnets.length then
    Except.error "RuntimeError: The number of Public/Private Subnets must match."
  else
    let subnet_pairs := (sortedByAZ public_subnets).zip (sortedByAZ private_subnets)
    Except.ok (subnet_pairs.map (fun p => mk p.1 p.2))

/-- C8: `create_nat_instances` raises RuntimeError iff the public and
private subnet lists have different lengths; with matching lengths it pairs
the i-th public subnet with the i-th private subnet after stably sorting
each list by availability zone, creating one NAT instance per pair, and
returns as many instances as pairs. -/
theorem create_nat_instances_spec {α : Type} (mk : Subnet → Subnet → α)
    (pub priv : List Subnet) :
    ((∃ e, create_nat_instances mk pub priv = Except.error e) ↔ pub.length ≠ priv.length) ∧
    (∀ res, create_nat_instances mk pub priv = Except.ok res →
      res.length = pub.length ∧
      (sortedByAZ pub).Perm pub ∧
      (sortedByAZ priv).Perm priv ∧
      List.Sorted (fun a b => lexLe a.availability_zone b.availability_zone = true) (sortedByAZ pub) ∧
      List.Sorted (fun a b => lexLe a.availability_zone b.availability_zone = true) (sortedByAZ priv) ∧
      ∀ (i : Nat) p q, (sortedByAZ pub)[i]? = some p → (sortedByAZ priv)[i]? = some q →
        res[i]? = some (mk p q)) := by
  haveI hTot : IsTotal Subnet (fun a b => lexLe a.availability_zone b.availability_zone = true) :=
    ⟨fun a b => lexLe_total _ _⟩
  haveI hTrans : IsTrans Subnet (fun a b => lexLe a.availability_zone b.availability_zone = true) :=
    ⟨fun _ _ _ h1 h2 => lexLe_trans h1 h2⟩
  constructor
  · constructor
    · rintro ⟨e, he⟩
      intro hlen
      simp [create_nat_instances, hlen] at he
    · intro hlen
      refine ⟨"RuntimeError: The number of Public/Private Subnets must match.", ?_⟩
      simp [create_nat_instances, hlen]
  · intro res hres
    by_cases hlen : pub.length = priv.length
    · unfold create_nat_instances at hres
      rw [if_neg (not_not.mpr hlen)] at hres
      obtain rfl := Except.ok.inj hres
      have hpermPub : (sortedByAZ pub).Perm pub := List.perm_insertionSort _ _
      have hpermPriv : (sortedByAZ priv).Perm priv := List.perm_insertionSort _ _
      refine ⟨?_, hpermPub, hpermPriv, List.sorted_insertionSort _ _,
        List.sorted_insertionSort _ _, ?_⟩
      · have h1 : (sortedByAZ pub).length = pub.length := hpermPub.length_eq
        have h2 : (sortedByAZ priv).length = priv.length := hpermPriv.length_eq
        simp [List.length_zip, h1, h2, hlen]
      · intro i p q hp hq
        have hzip : ((sortedByAZ pub).zip (sortedByAZ priv))[i]? = some (p, q) := by
          rw [List.getElem?_zip_eq_some]
          exact ⟨hp, hq⟩
        simp [List.getElem?_map, hzip]
    · simp [create_nat_instances, hlen] at hres

theorem create_nat_instances_spec_witness :
    ((∃ e, create_nat_instances (fun _ _ => (0 : Nat)) [⟨"s-1", "us-east-1a".toList, "10.0.0.0/24".toList⟩] [] = Except.error e) ↔
      ([⟨"s-1", "us-east-1a".toList, "10.0.0.0/24".toList⟩] : List Subnet).length ≠ ([] : List Subnet).length) ∧
    (∀ res, create_nat_instances (fun _ _ => (0 : Nat)) [⟨"s-1", "us-east-1a".toList, "10.0.0.0/24".toList⟩] [] = Except.ok res →
      res.length = 1 ∧
      (sortedByAZ [⟨"s-1", "us-east-1a".toList, "10.0.0.0/24".toList⟩]).Perm [⟨"s-1", "us-east-1a".toList, "10.0.0.0/24".toList⟩] ∧
      (sortedByAZ []).Perm [] ∧
      List.Sorted (fun a b => lexLe a.availability_zone b.availability_zone = true) (sortedByAZ [⟨"s-1", "us-east-1a".toList, "10.0.0.0/24".toList⟩]) ∧
      List.Sorted (fun a b => lexLe a.availability_zone b.availability_zone = true) (sortedByAZ []) ∧
      ∀ (i : Nat) p q, (sortedByAZ [⟨"s-1", "us-east-1a".toList, "10.0.0.0/24".toList⟩])[i]? = some p →
        (sortedByAZ [])[i]? = some q →
        res[i]? = some 0) :=
  create_nat_instances_spec (fun _ _ => (0 : Nat))
    [⟨"s-1", "us-east-1a".toList, "10.0.0.0/24".toList⟩] []

/-! ## compute.py: `get_nat_image` (claim C4) -/

/-- A boto EC2 AMI, restricted to the fields `get_nat_image` reads. -/
structure Image where
  id : String
  name : List Char
deriving DecidableEq, Repr

/-- The sort key used by `get_nat_image`: `x.name.split('-')[5]`, the date
field of an `amzn-ami-vpc-nat-…` AMI name.  Python raises IndexError when
the name has fewer than six `-`-separated fields; under the claim's
hypothesis the `getD` default is never exercised. -/
def natImageKey (x : Image) : List Char := (splitOnChar '-' x.name).getD 5 []

/-- `compute.get_nat_image` (lines 491-501) after the `get_all_images`
call, whose result is the `images` argument:
`sorted(images, key=lambda x: x.name.split('-')[5])[-1]`.
Python `sorted` is embedded as stable insertion sort; `[-1]` on an empty
list raises IndexError, embedded as `none`. -/
def get_nat_image (images : List Image) : Option Image :=
  (List.insertionSort (fun a b => lexLe (natImageKey a) (natImageKey b) = true)
    images).getLast?

/-- The last element of a list sorted by a reflexive relation is an upper
bound for all elements. -/
theorem sorted_getLast?_isMax {α : Type} {r : α → α → Prop} (hrefl : ∀ a, r a a)
    {l : List α} (hs : List.Sorted r l) {x last : α}
    (hx : x ∈ l) (hlast : l.getLast? = some last) : r x last := by
  have hne : l ≠ [] := by
    intro h
    rw [h] at hlast
    simp at hlast
  have hdecomp := List.dropLast_append_getLast hne
  rw [List.getLast?_eq_getLast l hne] at hlast
  have hlast' : l.getLast hne = last := by injection hlast
  rw [← hdecomp] at hs hx
  rw [List.Sorted, List.pairwise_append] at hs
  rcases List.mem_append.mp hx with hmem | hmem
  · have := hs.2.2 x hmem (l.getLast hne) (by simp)
    rwa [hlast'] at this
  · have : x = last := by
      rw [← hlast']
      simpa using hmem
    rw [this]
    exact hrefl last

/-- C4: for a non-empty image list in which every name has at least six
`-`-separated fields, `get_nat_image` returns an image from the list whose
sixth name field is maximal in string order. -/
theorem get_nat_image_picks_latest (images : List Image)
    (hne : images ≠ [])
    (hfields : ∀ x ∈ images, 6 ≤ (splitOnChar '-' x.name).length) :
    ∃ img, get_nat_image images = some img ∧ img ∈ images ∧
      ∀ x ∈ images, lexLe (natImageKey x) (natImageKey img) = true := by
  haveI : IsTotal Image (fun a b => lexLe (natImageKey a) (natImageKey b) = true) :=
    ⟨fun a b => lexLe_total _ _⟩
  haveI : IsTrans Image (fun a b => lexLe (natImageKey a) (natImageKey b) = true) :=
    ⟨fun _ _ _ h1 h2 => lexLe_trans h1 h2⟩
  have hperm : (List.insertionSort
      (fun a b => lexLe (natImageKey a) (natImageKey b) = true) images).Perm images :=
    List.perm_insertionSort _ _
  have hsne : (List.insertionSort
      (fun a b => lexLe (natImageKey a) (natImageKey b) = true) images) ≠ [] := by
    intro h
    have h' := hperm
    rw [h] at h'
    exact hne h'.symm.eq_nil
  obtain ⟨last, hlast⟩ : ∃ last, (List.insertionSort
      (fun a b => lexLe (natImageKey a) (natImageKey b) = true) images).getLast? = some last := by
    cases hcase : (List.insertionSort
        (fun a b => lexLe (natImageKey a) (natImageKey b) = true) images).getLast? with
    | none => exact absurd (List.getLast?_eq_none_iff.mp hcase) hsne
    | some v => exact ⟨v, rfl⟩
  refine ⟨last, hlast, ?_, ?_⟩
  · have : last ∈ (List.insertionSort
        (fun a b => lexLe (natImageKey a) (natImageKey b) = true) images) := by
      rw [List.getLast?_eq_getLast _ hsne] at hlast
      have := List.getLast_mem hsne
      rwa [Option.some.inj hlast] at this
    exact hperm.mem_iff.mp this
  · intro x hx
    exact sorted_getLast?_isMax (fun a => lexLe_refl (natImageKey a))
      (List.sorted_insertionSort _ images) (hperm.mem_iff.mpr hx) hlast

theorem get_nat_image_picks_latest_witness :
    ∃ img, get_nat_image
        [⟨"ami-1", "amzn-ami-vpc-nat-hvm-2014.09.1.x86_64-ebs".toList⟩
        ,⟨"ami-2", "amzn-ami-vpc-nat-hvm-2015.03.0.x86_64-ebs".toList⟩] = some img ∧
      img ∈ [⟨"ami-1", "amzn-ami-vpc-nat-hvm-2014.09.1.x86_64-ebs".toList⟩
            ,⟨"ami-2", "amzn-ami-vpc-nat-hvm-2015.03.0.x86_64-ebs".toList⟩] ∧
      ∀ x ∈ ([⟨"ami-1", "amzn-ami-vpc-nat-hvm-2014.09.1.x86_64-ebs".toList⟩
             ,⟨"ami-2", "amzn-ami-vpc-nat-hvm-2015.03.0.x86_64-ebs".toList⟩] : List Image),
        lexLe (natImageKey x) (natImageKey img) = true :=
  get_nat_image_picks_latest
    [⟨"ami-1", "amzn-ami-vpc-nat-hvm-2014.09.1.x86_64-ebs".toList⟩
    ,⟨"ami-2", "amzn-ami-vpc-nat-hvm-2015.03.0.x86_64-ebs".toList⟩]
    (by decide) (by decide)

/-! ## compute.py: `create_security_group` rule templating (claims C5, C3, C9)

String helpers embedding the Python string operations used by the rule
loop. -/

/-- ASCII digit test (`\d` in the rule regexes, `str.isdigit` shapes). -/
def isDigitChar (c : Char) : Bool := 48 ≤ c.toNat && c.toNat ≤ 57

/-- Embedding of Python `str.upper` on one ASCII character. -/
def pyUpperChar (c : Char) : Char :=
  if 97 ≤ c.toNat ∧ c.toNat ≤ 122 then Char.ofNat (c.toNat - 32) else c

/-- Embedding of Python `str.upper` (the protocol strings here are ASCII). -/
def pyUpper (s : List Char) : List Char := s.map pyUpperChar

theorem pyUpperChar_digit {c : Char} (h : isDigitChar c = true) :
    pyUpperChar c = c := by
  unfold isDigitChar at h
  rw [Bool.and_eq_true, decide_eq_true_eq, decide_eq_true_eq] at h
  unfold pyUpperChar
  rw [if_neg]
  omega

/-- Decimal digits to the number they denote (the computational content of
Python `int` on a digit string). -/
def digitsToNat : List Char → Nat → Nat
  | [], acc => acc
  | c :: cs, acc => digitsToNat cs (acc * 10 + (c.toNat - 48))

/-- Embedding of Python `int(s)` restricted to the shapes reachable here:
an optional minus sign followed by decimal digits; anything else raises
ValueError (`none`). -/
def pyToInt (s : List Char) : Option Int :=
  match s with
  | [] => none
  | c :: rest =>
    if c = '-' then
      if !rest.isEmpty && rest.all isDigitChar then
        some (-(digitsToNat rest 0 : Int))
      else none
    else if (c :: rest).all isDigitChar then some ((digitsToNat (c :: rest) 0 : Int))
    else none

theorem pyToInt_digits {s : List Char} (hne : s ≠ [])
    (hdig : s.all isDigitChar = true) : pyToInt s = some ((digitsToNat s 0 : Int)) := by
  cases s with
  | nil => exact absurd rfl hne
  | cons c cs =>
    have hc : isDigitChar c = true := by
      rw [List.all_cons, Bool.and_eq_true] at hdig
      exact hdig.1
    have hcne : c ≠ '-' := by
      intro h
      rw [h] at hc
      simp [isDigitChar] at hc
    simp only [pyToInt]
    rw [if_neg hcne, if_pos hdig]

theorem splitOnChar_cons_self (sep : Char) (cs : List Char) :
    splitOnChar sep (sep :: cs) = [] :: splitOnChar sep cs := by
  simp [splitOnChar]

theorem splitOnChar_cons_ne (sep c : Char) (cs : List Char) (h : c ≠ sep) :
    splitOnChar sep (c :: cs) =
      match splitOnChar sep cs with
      | [] => [[c]]
      | r :: rs => (c :: r) :: rs := by
  simp only [splitOnChar, if_neg h]

theorem splitOnChar_of_not_mem {sep : Char} {s : List Char} (h : sep ∉ s) :
    splitOnChar sep s = [s] := by
  induction s with
  | nil => rfl
  | cons c cs ih =>
    have hc : c ≠ sep := by
      intro hcs
      exact h (hcs ▸ List.mem_cons_self c cs)
    have hcs : sep ∉ cs := fun hmem => h (List.mem_cons_of_mem c hmem)
    rw [splitOnChar_cons_ne sep c cs hc, ih hcs]

theorem splitOnChar_append_sep {sep : Char} {pre rest : List Char}
    (h : sep ∉ pre) :
    splitOnChar sep (pre ++ sep :: rest) = pre :: splitOnChar sep rest := by
  induction pre with
  | nil =>
    simp only [List.nil_append]
    exact splitOnChar_cons_self sep rest
  | cons c cs ih =>
    have hc : c ≠ sep := by
      intro hcs
      exact h (hcs ▸ List.mem_cons_self c cs)
    have hcs : sep ∉ cs := fun hmem => h (List.mem_cons_of_mem c hmem)
    rw [List.cons_append, splitOnChar_cons_ne sep c _ hc, ih hcs]

/-- Digit lists never contain the separators used by the rule regexes. -/
theorem not_mem_of_all_digit {sep : Char} {s : List Char}
    (hdig : s.all isDigitChar = true) (hsep : isDigitChar sep = false) :
    sep ∉ s := by
  intro hmem
  rw [List.all_eq_true] at hdig
  rw [hdig sep hmem] at hsep
  simp at hsep

/-- One octet alternative of the CIDR regex at compute.py lines 120-123:
`25[0-5]|2[0-4]\d|1\d\d|[1-9]?\d` (anchored to a whole dot-separated
field). -/
def isOctet (s : List Char) : Bool :=
  match s with
  | ['2', '5', d] => 48 ≤ d.toNat && d.toNat ≤ 53
  | ['2', d1, d2] => 48 ≤ d1.toNat && d1.toNat ≤ 52 && isDigitChar d2
  | ['1', d1, d2] => isDigitChar d1 && isDigitChar d2
  | [c1, c2] => 49 ≤ c1.toNat && c1.toNat ≤ 57 && isDigitChar c2
  | [c] => isDigitChar c
  | _ => false

/-- The prefix-length alternative of the CIDR regex at line 124:
`([1-2]?[0-9])|(3[0-2])`. -/
def isMaskLen (s : List Char) : Bool :=
  match s with
  | [c] => isDigitChar c
  | [c1, c2] =>
    (49 ≤ c1.toNat && c1.toNat ≤ 50 && isDigitChar c2) ||
      (c1 = '3' && (48 ≤ c2.toNat && c2.toNat ≤ 50))
  | _ => false

/-- The anchored CIDR regex of lines 120-124,
`^(octet)\.(octet)\.(octet)\.(octet)(/(mask))$`, decomposed along the
separators (octets and masks consist of digits only, so splitting on `.`
and `/` recovers exactly the capture groups the regex would match). -/
def isCidrIp (s : List Char) : Bool :=
  match splitOnChar '.' s with
  | [a, b, c, dp] =>
    match splitOnChar '/' dp with
    | [d, p] => isOctet a && isOctet b && isOctet c && isOctet d && isMaskLen p
    | _ => false
  | _ => false

/-- The rule target as `create_security_group` uses it: a matching target
becomes `target_cidr_ip`, any other target is passed to
`get_all_security_groups(group_ids=[target])` (lines 125-126). -/
inductive RuleTarget
  | cidr_ip (s : List Char)
  | security_group (s : List Char)
deriving DecidableEq, Repr

def targetOf (target : List Char) : RuleTarget :=
  if isCidrIp target then RuleTarget.cidr_ip target else RuleTarget.security_group target

/-- One authorization issued by the rule loop: `security_group.authorize`
(inbound) or `ec2_connection.authorize_security_group_egress` (outbound). -/
structure Auth where
  outbound : Bool
  ip_protocol : String
  from_port : Int
  to_port : Int
  target : RuleTarget
deriving DecidableEq, Repr

/-- The port-range regex `^\d+\-\d+$` at line 132. -/
def portRangeRe (s : List Char) : Bool :=
  match splitOnChar '-' s with
  | [a, b] => !a.isEmpty && !b.isEmpty && a.all isDigitChar && b.all isDigitChar
  | _ => false

/-- The TCP/UDP arm shared by the inbound and outbound branches:
`authorize(..., from_port=int(from_port), to_port=int(to_port), ...)`.
`port = None` is impossible when these branches run (the protocol equals
`TCP`/`UDP` only after the `protocol[:3]` split assigned a port), and
`int` on a non-numeric port raises ValueError. -/
def tcpUdpAuth (outbound : Bool) (proto : String)
    (port : Option (List Char × List Char)) (tgt : RuleTarget) :
    Except String (List Auth) :=
  match port with
  | some (f, t) =>
    match pyToInt f, pyToInt t with
    | some fi, some ti => Except.ok [⟨outbound, proto, fi, ti, tgt⟩]
    | _, _ => Except.error "ValueError: invalid literal for int"
  | none => Except.error "unreachable: TCP/UDP rules always parse a port"

/-- The protocol dispatch of lines 137-162: the two `if rule_type ==`
blocks.  A protocol matching no branch issues no authorization (the loop
just logs and continues). -/
def dispatchRule (outbound : Bool) (protocol : List Char)
    (port : Option (List Char × List Char)) (tgt : RuleTarget) :
    Except String (List Auth) :=
  if ¬ outbound then
    if protocol = "HTTP".toList then Except.ok [⟨false, "tcp", 80, 80, tgt⟩]
    else if protocol = "HTTPS".toList then Except.ok [⟨false, "tcp", 443, 443, tgt⟩]
    else if protocol = "TCP".toList then tcpUdpAuth false "tcp" port tgt
    else if protocol = "UDP".toList then tcpUdpAuth false "udp" port tgt
    else Except.ok []
  else
    if protocol = "HTTP".toList then Except.ok [⟨true, "tcp", 80, 80, tgt⟩]
    else if protocol = "HTTPS".toList then Except.ok [⟨true, "tcp", 443, 443, tgt⟩]
    else if protocol = "DNS".toList then
      Except.ok [⟨true, "tcp", 53, 53, tgt⟩, ⟨true, "udp", 53, 53, tgt⟩]
    else if protocol = "TCP".toList then tcpUdpAuth true "tcp" port tgt
    else if protocol = "UDP".toList then tcpUdpAuth true "udp" port tgt
    else Except.ok []

/-- One iteration of the rule loop in `create_security_group` (lines
116-162): uppercase the protocol, classify the target with the CIDR regex,
split off the port for `TCP`/`UDP` protocols (`itemgetter(0, 1)` raises
IndexError on a 1-element split), then dispatch.  `outbound` is true for
`rule_type == 'outbound'`. -/
def processRule (outbound : Bool) (protocol0 target : List Char) :
    Except String (List Auth) :=
  let protocolU := pyUpper protocol0
  let tgt := targetOf target
  if protocolU.take 3 = "TCP".toList ∨ protocolU.take 3 = "UDP".toList then
    match splitOnChar ':' protocolU with
    | p0 :: p1 :: _ =>
      if portRangeRe p1 then
        match splitOnChar '-' p1 with
        | f :: t :: _ => dispatchRule outbound p0 (some (f, t)) tgt
        | _ => Except.error "IndexError: itemgetter(0, 1) on port split"
      else dispatchRule outbound p0 (some (p1, p1)) tgt
    | _ => Except.error "IndexError: itemgetter(0, 1) on protocol split"
  else dispatchRule outbound protocolU none tgt

theorem pyUpper_digits {ps : List Char} (h : ps.all isDigitChar = true) :
    ps.map pyUpperChar = ps := by
  induction ps with
  | nil => rfl
  | cons c cs ih =>
    rw [List.all_cons, Bool.and_eq_true] at h
    rw [List.map_cons, pyUpperChar_digit h.1, ih h.2]

set_option maxRecDepth 10000 in
theorem isOctet_repr : ∀ a : Nat, a < 256 → isOctet ((Nat.repr a).toList) = true := by
  decide

set_option maxRecDepth 10000 in
theorem isMaskLen_repr : ∀ m : Nat, m < 33 → isMaskLen ((Nat.repr m).toList) = true := by
  decide

set_option maxRecDepth 10000 in
theorem repr_digits : ∀ a : Nat, a < 256 →
    ((Nat.repr a).toList.all isDigitChar = true ∧ (Nat.repr a).toList ≠ []) := by
  decide

/-- The canonical text of a dotted-quad CIDR block `a.b.c.d/m`: what the
claim calls "a dotted-quad CIDR with prefix /0 through /32" (the regex
admits exactly canonical decimal fields, without leading zeros). -/
def dottedQuad (a b c d m : Nat) : List Char :=
  (Nat.repr a).toList ++ '.' ::
    ((Nat.repr b).toList ++ '.' ::
      ((Nat.repr c).toList ++ '.' ::
        ((Nat.repr d).toList ++ '/' :: (Nat.repr m).toList)))

theorem isCidrIp_dottedQuad {a b c d m : Nat} (ha : a < 256) (hb : b < 256)
    (hc : c < 256) (hd : d < 256) (hm : m < 33) :
    isCidrIp (dottedQuad a b c d m) = true := by
  obtain ⟨hda, hnea⟩ := repr_digits a ha
  obtain ⟨hdb, hneb⟩ := repr_digits b hb
  obtain ⟨hdc, hnec⟩ := repr_digits c hc
  obtain ⟨hdd, hned⟩ := repr_digits d hd
  have hmlt : m < 256 := by omega
  obtain ⟨hdm, hnem⟩ := repr_digits m hmlt
  have hdot : isDigitChar '.' = false := by decide
  have hna : '.' ∉ (Nat.repr a).toList := not_mem_of_all_digit hda hdot
  have hnb : '.' ∉ (Nat.repr b).toList := not_mem_of_all_digit hdb hdot
  have hnc : '.' ∉ (Nat.repr c).toList := not_mem_of_all_digit hdc hdot
  have hnd2 : '.' ∉ (Nat.repr d).toList ++ '/' :: (Nat.repr m).toList := by
    intro hmem
    rcases List.mem_append.mp hmem with h | h
    · exact (not_mem_of_all_digit hdd hdot) h
    · rcases List.mem_cons.mp h with h | h
      · exact absurd h (by decide)
      · exact (not_mem_of_all_digit hdm hdot) h
  have hslash : '/' ∉ (Nat.repr m).toList :=
    not_mem_of_all_digit hdm (by decide)
  have hsplit1 : splitOnChar '.' (dottedQuad a b c d m) =
      [(Nat.repr a).toList, (Nat.repr b).toList, (Nat.repr c).toList,
        (Nat.repr d).toList ++ '/' :: (Nat.repr m).toList] := by
    unfold dottedQuad
    rw [splitOnChar_append_sep hna, splitOnChar_append_sep hnb,
      splitOnChar_append_sep hnc, splitOnChar_of_not_mem hnd2]
  have hsplit2 : splitOnChar '/' ((Nat.repr d).toList ++ '/' :: (Nat.repr m).toList) =
      [(Nat.repr d).toList, (Nat.repr m).toList] := by
    rw [splitOnChar_append_sep (not_mem_of_all_digit hdd (by decide)),
      splitOnChar_of_not_mem hslash]
  unfold isCidrIp
  rw [hsplit1]
  simp only [hsplit2]
  rw [isOctet_repr a ha, isOctet_repr b hb, isOctet_repr c hc, isOctet_repr d hd,
    isMaskLen_repr m hm]
  rfl

theorem processRule_http (out : Bool) (p t : List Char)
    (hp : pyUpper p = "HTTP".toList) :
    processRule out p t = Except.ok [⟨out, "tcp", 80, 80, targetOf t⟩] := by
  simp only [processRule]
  rw [hp, if_neg (by decide)]
  cases out <;> rfl

theorem processRule_https (out : Bool) (p t : List Char)
    (hp : pyUpper p = "HTTPS".toList) :
    processRule out p t = Except.ok [⟨out, "tcp", 443, 443, targetOf t⟩] := by
  simp only [processRule]
  rw [hp, if_neg (by decide)]
  cases out <;> rfl

theorem processRule_dns_outbound (p t : List Char)
    (hp : pyUpper p = "DNS".toList) :
    processRule true p t =
      Except.ok [⟨true, "tcp", 53, 53, targetOf t⟩, ⟨true, "udp", 53, 53, targetOf t⟩] := by
  simp only [processRule]
  rw [hp, if_neg (by decide)]
  rfl

theorem processRule_tcp_single (out : Bool) (t ps : List Char) (hne : ps ≠ [])
    (hdig : ps.all isDigitChar = true) :
    processRule out ("TCP:".toList ++ ps) t =
      Except.ok [⟨out, "tcp", (digitsToNat ps 0 : Int), (digitsToNat ps 0 : Int),
        targetOf t⟩] := by
  have hcolon : ':' ∉ ps := not_mem_of_all_digit hdig (by decide)
  have hminus : '-' ∉ ps := not_mem_of_all_digit hdig (by decide)
  have hup : pyUpper ("TCP:".toList ++ ps) = 'T' :: 'C' :: 'P' :: ':' :: ps := by
    unfold pyUpper
    rw [List.map_append, pyUpper_digits hdig]
    rfl
  have hsplitc : splitOnChar ':' ('T' :: 'C' :: 'P' :: ':' :: ps) = ["TCP".toList, ps] := by
    rw [splitOnChar_cons_ne ':' 'T' _ (by decide), splitOnChar_cons_ne ':' 'C' _ (by decide),
      splitOnChar_cons_ne ':' 'P' _ (by decide), splitOnChar_cons_self ':' ps,
      splitOnChar_of_not_mem hcolon]
    rfl
  have hpr : portRangeRe ps = false := by
    unfold portRangeRe
    rw [splitOnChar_of_not_mem hminus]
  simp only [processRule]
  rw [hup]
  have hcond : List.take 3 ('T' :: 'C' :: 'P' :: ':' :: ps) = "TCP".toList ∨
      List.take 3 ('T' :: 'C' :: 'P' :: ':' :: ps) = "UDP".toList := Or.inl rfl
  rw [if_pos hcond, hsplitc]
  cases out <;>
    simp [hpr, dispatchRule, tcpUdpAuth, pyToInt_digits hne hdig]

theorem processRule_udp_single (out : Bool) (t ps : List Char) (hne : ps ≠ [])
    (hdig : ps.all isDigitChar = true) :
    processRule out ("UDP:".toList ++ ps) t =
      Except.ok [⟨out, "udp", (digitsToNat ps 0 : Int), (digitsToNat ps 0 : Int),
        targetOf t⟩] := by
  have hcolon : ':' ∉ ps := not_mem_of_all_digit hdig (by decide)
  have hminus : '-' ∉ ps := not_mem_of_all_digit hdig (by decide)
  have hup : pyUpper ("UDP:".toList ++ ps) = 'U' :: 'D' :: 'P' :: ':' :: ps := by
    unfold pyUpper
    rw [List.map_append, pyUpper_digits hdig]
    rfl
  have hsplitc : splitOnChar ':' ('U' :: 'D' :: 'P' :: ':' :: ps) = ["UDP".toList, ps] := by
    rw [splitOnChar_cons_ne ':' 'U' _ (by decide), splitOnChar_cons_ne ':' 'D' _ (by decide),
      splitOnChar_cons_ne ':' 'P' _ (by decide), splitOnChar_cons_self ':' ps,
      splitOnChar_of_not_mem hcolon]
    rfl
  have hpr : portRangeRe ps = false := by
    unfold portRangeRe
    rw [splitOnChar_of_not_mem hminus]
  simp only [processRule]
  rw [hup]
  have hcond : List.take 3 ('U' :: 'D' :: 'P' :: ':' :: ps) = "TCP".toList ∨
      List.take 3 ('U' :: 'D' :: 'P' :: ':' :: ps) = "UDP".toList := Or.inr rfl
  rw [if_pos hcond, hsplitc]
  cases out <;>
    simp [hpr, dispatchRule, tcpUdpAuth, pyToInt_digits hne hdig]

theorem processRule_tcp_range (out : Bool) (t lo hi : List Char)
    (hnlo : lo ≠ []) (hnhi : hi ≠ [])
    (hlo : lo.all isDigitChar = true) (hhi : hi.all isDigitChar = true) :
    processRule out ("TCP:".toList ++ (lo ++ '-' :: hi)) t =
      Except.ok [⟨out, "tcp", (digitsToNat lo 0 : Int), (digitsToNat hi 0 : Int),
        targetOf t⟩] := by
  have hcolon : ':' ∉ lo ++ '-' :: hi := by
    intro hmem
    rcases List.mem_append.mp hmem with h | h
    · exact (not_mem_of_all_digit hlo (by decide)) h
    · rcases List.mem_cons.mp h with h | h
      · exact absurd h (by decide)
      · exact (not_mem_of_all_digit hhi (by decide)) h
  have hup : pyUpper ("TCP:".toList ++ (lo ++ '-' :: hi)) =
      'T' :: 'C' :: 'P' :: ':' :: (lo ++ '-' :: hi) := by
    unfold pyUpper
    rw [List.map_append, List.map_append, pyUpper_digits hlo, List.map_cons,
      pyUpper_digits hhi]
    rfl
  have hsplitc : splitOnChar ':' ('T' :: 'C' :: 'P' :: ':' :: (lo ++ '-' :: hi)) =
      ["TCP".toList, lo ++ '-' :: hi] := by
    rw [splitOnChar_cons_ne ':' 'T' _ (by decide), splitOnChar_cons_ne ':' 'C' _ (by decide),
      splitOnChar_cons_ne ':' 'P' _ (by decide), splitOnChar_cons_self ':' _,
      splitOnChar_of_not_mem hcolon]
    rfl
  have hsplitm : splitOnChar '-' (lo ++ '-' :: hi) = [lo, hi] := by
    rw [splitOnChar_append_sep (not_mem_of_all_digit hlo (by decide)),
      splitOnChar_of_not_mem (not_mem_of_all_digit hhi (by decide))]
  have hpr : portRangeRe (lo ++ '-' :: hi) = true := by
    unfold portRangeRe
    rw [hsplitm]
    simp only [Bool.and_eq_true, Bool.not_eq_true']
    refine ⟨⟨⟨?_, ?_⟩, hlo⟩, hhi⟩
    · cases lo with
      | nil => exact absurd rfl hnlo
      | cons c cs => rfl
    · cases hi with
      | nil => exact absurd rfl hnhi
      | cons c cs => rfl
  simp only [processRule]
  rw [hup]
  have hcond : List.take 3 ('T' :: 'C' :: 'P' :: ':' :: (lo ++ '-' :: hi)) = "TCP".toList ∨
      List.take 3 ('T' :: 'C' :: 'P' :: ':' :: (lo ++ '-' :: hi)) = "UDP".toList := Or.inl rfl
  rw [if_pos hcond, hsplitc]
  cases out <;>
    simp [hpr, hsplitm, dispatchRule, tcpUdpAuth, pyToInt_digits hnlo hlo,
      pyToInt_digits hnhi hhi]

theorem processRule_udp_range (out : Bool) (t lo hi : List Char)
    (hnlo : lo ≠ []) (hnhi : hi ≠ [])
    (hlo : lo.all isDigitChar = true) (hhi : hi.all isDigitChar = true) :
    processRule out ("UDP:".toList ++ (lo ++ '-' :: hi)) t =
      Except.ok [⟨out, "udp", (digitsToNat lo 0 : Int), (digitsToNat hi 0 : Int),
        targetOf t⟩] := by
  have hcolon : ':' ∉ lo ++ '-' :: hi := by
    intro hmem
    rcases List.mem_append.mp hmem with h | h
    · exact (not_mem_of_all_digit hlo (by decide)) h
    · rcases List.mem_cons.mp h with h | h
      · exact absurd h (by decide)
      · exact (not_mem_of_all_digit hhi (by decide)) h
  have hup : pyUpper ("UDP:".toList ++ (lo ++ '-' :: hi)) =
      'U' :: 'D' :: 'P' :: ':' :: (lo ++ '-' :: hi) := by
    unfold pyUpper
    rw [List.map_append, List.map_append, pyUpper_digits hlo, List.map_cons,
      pyUpper_digits hhi]
    rfl
  have hsplitc : splitOnChar ':' ('U' :: 'D' :: 'P' :: ':' :: (lo ++ '-' :: hi)) =
      ["UDP".toList, lo ++ '-' :: hi] := by
    rw [splitOnChar_cons_ne ':' 'U' _ (by decide), splitOnChar_cons_ne ':' 'D' _ (by decide),
      splitOnChar_cons_ne ':' 'P' _ (by decide), splitOnChar_cons_self ':' _,
      splitOnChar_of_not_mem hcolon]
    rfl
  have hsplitm : splitOnChar '-' (lo ++ '-' :: hi) = [lo, hi] := by
    rw [splitOnChar_append_sep (not_mem_of_all_digit hlo (by decide)),
      splitOnChar_of_not_mem (not_mem_of_all_digit hhi (by decide))]
  have hpr : portRangeRe (lo ++ '-' :: hi) = true := by
    unfold portRangeRe
    rw [hsplitm]
    simp only [Bool.and_eq_true, Bool.not_eq_true']
    refine ⟨⟨⟨?_, ?_⟩, hlo⟩, hhi⟩
    · cases lo with
      | nil => exact absurd rfl hnlo
      | cons c cs => rfl
    · cases hi with
      | nil => exact absurd rfl hnhi
      | cons c cs => rfl
  simp only [processRule]
  rw [hup]
  have hcond : List.take 3 ('U' :: 'D' :: 'P' :: ':' :: (lo ++ '-' :: hi)) = "TCP".toList ∨
      List.take 3 ('U' :: 'D' :: 'P' :: ':' :: (lo ++ '-' :: hi)) = "UDP".toList := Or.inr rfl
  rw [if_pos hcond, hsplitc]
  cases out <;>
    simp [hpr, hsplitm, dispatchRule, tcpUdpAuth, pyToInt_digits hnlo hlo,
      pyToInt_digits hnhi hhi]

/-- C5: the rule loop templates protocols case-insensitively — `HTTP`
becomes tcp 80-80, `HTTPS` tcp 443-443, outbound `DNS` both a tcp and a udp
rule on 53-53, `TCP:p`/`UDP:p` the named protocol on p-p, and
`TCP:a-b`/`UDP:a-b` ports a-b — and a target matching a dotted-quad CIDR
with prefix /0 through /32 is applied as a CIDR rule while any other target
is treated as a security-group id. -/
theorem security_group_rule_templating :
    (∀ (out : Bool) (p t : List Char), pyUpper p = "HTTP".toList →
      processRule out p t = Except.ok [⟨out, "tcp", 80, 80, targetOf t⟩]) ∧
    (∀ (out : Bool) (p t : List Char), pyUpper p = "HTTPS".toList →
      processRule out p t = Except.ok [⟨out, "tcp", 443, 443, targetOf t⟩]) ∧
    (∀ (p t : List Char), pyUpper p = "DNS".toList →
      processRule true p t =
        Except.ok [⟨true, "tcp", 53, 53, targetOf t⟩, ⟨true, "udp", 53, 53, targetOf t⟩]) ∧
    (∀ (out : Bool) (t ps : List Char), ps ≠ [] → ps.all isDigitChar = true →
      processRule out ("TCP:".toList ++ ps) t =
        Except.ok [⟨out, "tcp", (digitsToNat ps 0 : Int), (digitsToNat ps 0 : Int), targetOf t⟩] ∧
      processRule out ("UDP:".toList ++ ps) t =
        Except.ok [⟨out, "udp", (digitsToNat ps 0 : Int), (digitsToNat ps 0 : Int), targetOf t⟩]) ∧
    (∀ (out : Bool) (t lo hi : List Char), lo ≠ [] → hi ≠ [] →
      lo.all isDigitChar = true → hi.all isDigitChar = true →
      processRule out ("TCP:".toList ++ (lo ++ '-' :: hi)) t =
        Except.ok [⟨out, "tcp", (digitsToNat lo 0 : Int), (digitsToNat hi 0 : Int), targetOf t⟩] ∧
      processRule out ("UDP:".toList ++ (lo ++ '-' :: hi)) t =
        Except.ok [⟨out, "udp", (digitsToNat lo 0 : Int), (digitsToNat hi 0 : Int), targetOf t⟩]) ∧
    (∀ (a b c d m : Nat), a < 256 → b < 256 → c < 256 → d < 256 → m < 33 →
      targetOf (dottedQuad a b c d m) = RuleTarget.cidr_ip (dottedQuad a b c d m)) ∧
    (∀ t : List Char, isCidrIp t = false → targetOf t = RuleTarget.security_group t) ∧
    (isCidrIp "10.1.2.3/33".toList = false ∧ isCidrIp "10.1.2.3".toList = false ∧
      isCidrIp "256.1.2.3/8".toList = false ∧ isCidrIp "01.2.3.4/8".toList = false ∧
      isCidrIp "0.0.0.0/0".toList = true ∧ isCidrIp "255.255.255.255/32".toList = true) := by
  refine ⟨processRule_http, processRule_https, processRule_dns_outbound, ?_, ?_, ?_, ?_, ?_⟩
  · intro out t ps hne hdig
    exact ⟨processRule_tcp_single out t ps hne hdig, processRule_udp_single out t ps hne hdig⟩
  · intro out t lo hi hnlo hnhi hlo hhi
    exact ⟨processRule_tcp_range out t lo hi hnlo hnhi hlo hhi,
      processRule_udp_range out t lo hi hnlo hnhi hlo hhi⟩
  · intro a b c d m ha hb hc hd hm
    unfold targetOf
    rw [isCidrIp_dottedQuad ha hb hc hd hm]
    rfl
  · intro t ht
    unfold targetOf
    rw [ht]
    rfl
  · decide

theorem security_group_rule_templating_witness :
    processRule false "http".toList "10.0.0.0/8".toList =
      Except.ok [⟨false, "tcp", 80, 80, targetOf "10.0.0.0/8".toList⟩] ∧
    processRule true "https".toList "sg-d921dbbc".toList =
      Except.ok [⟨true, "tcp", 443, 443, targetOf "sg-d921dbbc".toList⟩] ∧
    processRule true "dns".toList "0.0.0.0/0".toList =
      Except.ok [⟨true, "tcp", 53, 53, targetOf "0.0.0.0/0".toList⟩,
        ⟨true, "udp", 53, 53, targetOf "0.0.0.0/0".toList⟩] ∧
    processRule true ("TCP:".toList ++ "5432".toList) "0.0.0.0/0".toList =
      Except.ok [⟨true, "tcp", (digitsToNat "5432".toList 0 : Int),
        (digitsToNat "5432".toList 0 : Int), targetOf "0.0.0.0/0".toList⟩] ∧
    processRule false ("UDP:".toList ++ ("1000".toList ++ '-' :: "2000".toList))
        "gp-app".toList =
      Except.ok [⟨false, "udp", (digitsToNat "1000".toList 0 : Int),
        (digitsToNat "2000".toList 0 : Int), targetOf "gp-app".toList⟩] ∧
    targetOf (dottedQuad 10 0 0 0 8) = RuleTarget.cidr_ip (dottedQuad 10 0 0 0 8) ∧
    targetOf "gp-app".toList = RuleTarget.security_group "gp-app".toList :=
  ⟨security_group_rule_templating.1 false "http".toList _ (by decide),
   security_group_rule_templating.2.1 true "https".toList _ (by decide),
   security_group_rule_templating.2.2.1 "dns".toList _ (by decide),
   (security_group_rule_templating.2.2.2.1 true "0.0.0.0/0".toList "5432".toList
      (by decide) (by decide)).1,
   (security_group_rule_templating.2.2.2.2.1 false "gp-app".toList "1000".toList
      "2000".toList (by decide) (by decide) (by decide) (by decide)).2,
   security_group_rule_templating.2.2.2.2.2.1 10 0 0 0 8
      (by decide) (by decide) (by decide) (by decide) (by decide),
   security_group_rule_templating.2.2.2.2.2.2.1 "gp-app".toList (by decide)⟩

/-! ## compute.py: `create_security_group` / `create_instance` (claims C3, C9) -/

/-- Outcome of one `create_tags` call: boto returns a boolean, or raises an
`EC2ResponseError` carrying a code. -/
inductive TagAttempt
  | success (registered : Bool)
  | ec2Error (code : String)
deriving DecidableEq, Repr

/-- Python exceptions propagating out of the embedded functions.
`freshEC2ResponseError` is what the bare `raise boto.exception.EC2ResponseError`
statements at compute.py lines 175, 459, 470 and 483 produce: a freshly
constructed exception that carries nothing of the caught error (at runtime
the argument-less construction itself fails with TypeError).  `reraised`
is what a genuine re-raise of the caught error would produce; the code
never raises it — it exists to state what the specification asserts. -/
inductive PyErr
  | freshEC2ResponseError
  | reraised (code : String)
  | ruleError (msg : String)
  | runtimeError (msg : String)
  | indexError (msg : String)
deriving DecidableEq, Repr

/-- The `while not tagged` retry loop around `create_tags` (compute.py
lines 165-175, 448-459, 473-483): retries while `create_tags` returns a
falsy value or raises an EC2 error whose code equals `swallow`; any other
EC2 error code reaches the bare `raise`.  Fuel-indexed: `ok none` means
the loop was still retrying when the fuel ran out; `ok (some t)` means
attempt `t` succeeded. -/
def tagRetryLoop (swallow : String) (att : Nat → TagAttempt) :
    Nat → Nat → Except PyErr (Option Nat)
  | _, 0 => Except.ok none
  | t, fuel+1 =>
    match att t with
    | TagAttempt.success true => Except.ok (some t)
    | TagAttempt.success false => tagRetryLoop swallow att (t+1) fuel
    | TagAttempt.ec2Error c =>
      if c = swallow then tagRetryLoop swallow att (t+1) fuel
      else Except.error PyErr.freshEC2ResponseError

/-- A security-group rule tuple `(protocol, target)`. -/
abbrev Rule := List Char × List Char

/-- The heap of Python list objects usable as `allowed_outbound_traffic`.
Python evaluates the `allowed_outbound_traffic=[]` default once, at
function definition time, so every call omitting the argument aliases one
shared list; `DEFAULT_OUTBOUND_REF` is that object's (fixed) address, and
callers passing their own list pass its address instead. -/
abbrev RuleHeap := Nat → List Rule

def DEFAULT_OUTBOUND_REF : Nat := 0

/-- `('TCP:%d' % INBOUND_PORT[database_backend], '0.0.0.0/0')` (line 107). -/
def backendRule (port : Int) : Rule :=
  ("TCP:".toList ++ (toString port).toList, "0.0.0.0/0".toList)

/-- Oracles for the AWS calls made by `create_security_group`. -/
structure SGEnv where
  creation_mode_permanent : Bool
  existing_lookup : Except String (List String)
  created_group_id : String
  tag_attempts : Nat → TagAttempt
  tag_fuel : Nat

/-- AWS interactions performed by `create_security_group`. -/
inductive SGEvent
  | connectEC2
  | foundExisting (gid : String)
  | createGroup (gid : String)
  | revokeDefaultEgress
  | authorize (a : Auth)
deriving DecidableEq, Repr

/-- The rule loop of lines 116-162 over one direction's rules, collecting
the issued authorizations; an exception inside an iteration aborts the
loop but keeps the authorizations already issued. -/
def processRulesGo (outbound : Bool) : List Rule → Option PyErr × List Auth
  | [] => (none, [])
  | (proto, tgt) :: rest =>
    match processRule outbound proto tgt with
    | Except.error e => (some (PyErr.ruleError e), [])
    | Except.ok auths =>
      let r := processRulesGo outbound rest
      (r.1, auths ++ r.2)

/-- The full rule loop: the source iterates the concatenation of the
inbound rules (tagged `'inbound'`) and the outbound rules (tagged
`'outbound'`). -/
def processRules (inbound_rules outbound_rules : List Rule) : Option PyErr × List Auth :=
  let ri := processRulesGo false inbound_rules
  match ri.1 with
  | some e => (some e, ri.2)
  | none =>
    let ro := processRulesGo true outbound_rules
    (ro.1, ri.2 ++ ro.2)

/-- The PERMANENT-mode existing-group check (lines 96-104).  The `except`
block swallows every `EC2ResponseError` (its `if` tests
`'InvalidGroup.NotFound'` but does nothing in either case). -/
def sgExisting (env : SGEnv) : Option String :=
  if env.creation_mode_permanent then
    match env.existing_lookup with
    | Except.ok (g :: gs) => some ((g :: gs).getLast (by simp))
    | Except.ok [] => none
    | Except.error _ => none
  else none

/-- The heap after the `allowed_outbound_traffic.append(...)` at lines
106-107: with a `database_backend`, the rule is appended in place to the
list object named by the argument (the shared default when the argument
was omitted); without one, nothing is touched. -/
def sgHeapAfter (INBOUND_PORT : String → Int) (heap : RuleHeap)
    (database_backend : Option String) (allowed_outbound_traffic : Option Nat) : RuleHeap :=
  let ref := allowed_outbound_traffic.getD DEFAULT_OUTBOUND_REF
  match database_backend with
  | some backend => Function.update heap ref (heap ref ++ [backendRule (INBOUND_PORT backend)])
  | none => heap

/-- The outbound rules a call actually processes: the current contents of
the list object named by `allowed_outbound_traffic` (the shared default
when omitted). -/
def effectiveOutbound (heap : RuleHeap) (allowed_outbound_traffic : Option Nat) : List Rule :=
  heap (allowed_outbound_traffic.getD DEFAULT_OUTBOUND_REF)

/-- `compute.create_security_group` (lines 23-177).  `INBOUND_PORT` lives
in `sky/database.py`, which is not among the sources; it is abstracted as
a function argument (the claims depend only on the port chosen for the
backend).  The generated name only feeds logs and tags, so it is dropped.
Result: the outcome (`ok none` = a retry loop was still running at fuel
exhaustion, `ok (some gid)` = returned the group), the heap after the
call, and the AWS interactions performed. -/
def create_security_group (INBOUND_PORT : String → Int) (env : SGEnv)
    (heap : RuleHeap) (database_backend : Option String)
    (allowed_inbound_traffic : List Rule) (allowed_outbound_traffic : Option Nat) :
    Except PyErr (Option String) × RuleHeap × List SGEvent :=
  match sgExisting env with
  | some gid => (Except.ok (some gid), heap, [SGEvent.connectEC2, SGEvent.foundExisting gid])
  | none =>
    let heap1 := sgHeapAfter INBOUND_PORT heap database_backend allowed_outbound_traffic
    let outbound_rules := effectiveOutbound heap1 allowed_outbound_traffic
    let pr := processRules allowed_inbound_traffic outbound_rules
    let events := SGEvent.connectEC2 :: SGEvent.createGroup env.created_group_id ::
      SGEvent.revokeDefaultEgress :: pr.2.map SGEvent.authorize
    let result : Except PyErr (Option String) :=
      match pr.1 with
      | some e => Except.error e
      | none =>
        match tagRetryLoop "InvalidID" env.tag_attempts 0 env.tag_fuel with
        | Except.error e => Except.error e
        | Except.ok none => Except.ok none
        | Except.ok (some _) => Except.ok (some env.created_group_id)
    (result, heap1, events)

/-- Outcome of one `get_all_network_interfaces` call. -/
inductive EniFetch
  | ok (ids : List String)
  | ec2Error (code : String)
deriving DecidableEq, Repr

/-- The `while not interfaces` retry loop around
`get_all_network_interfaces` (lines 462-470): retries on an empty (falsy)
result and on `InvalidInstanceID.NotFound`; any other EC2 error code
reaches the bare `raise`. -/
def eniFetchLoop (att : Nat → EniFetch) : Nat → Nat → Except PyErr (Option (List String))
  | _, 0 => Except.ok none
  | t, fuel+1 =>
    match att t with
    | EniFetch.ok [] => eniFetchLoop att (t+1) fuel
    | EniFetch.ok (i :: is) => Except.ok (some (i :: is))
    | EniFetch.ec2Error c =>
      if c = "InvalidInstanceID.NotFound" then eniFetchLoop att (t+1) fuel
      else Except.error PyErr.freshEC2ResponseError

/-- Oracles for the AWS calls made by `create_instance`. -/
structure CIEnv where
  image_found : Bool
  run_ids : List String
  tag_attempts : Nat → TagAttempt
  tag_fuel : Nat
  eni_fetch : Nat → EniFetch
  eni_fuel : Nat
  eni_tag_attempts : Nat → TagAttempt
  eni_tag_fuel : Nat
  refreshed_ids : List String

/-- AWS interactions performed by `create_instance`. -/
inductive CIEvent
  | connectEC2
  | runInstances (ids : List String)
  | instancesTagged
  | enisFetched (ids : List String)
  | enisTagged
  | refreshedInstances
deriving DecidableEq, Repr

/-- `compute.create_instance` (lines 400-489), given its security groups
(as `create_nat_instance` always supplies them; the `security_groups=None`
branch delegates to `create_security_group`, modelled above).  When an
`image_id` was supplied but `get_image` finds nothing, RuntimeError is
raised; a missing `image_id` falls back to the `ami` quick-start table.
Then: `run_instances`, the instance `create_tags` retry loop (swallowing
`InvalidInstanceID.NotFound`), the ENI fetch retry loop, the ENI
`create_tags` retry loop (swallowing `InvalidNetworkInterfaceID.NotFound`),
and the final refresh via `get_all_instances`. -/
def create_instance (env : CIEnv) (image_id : Option String) :
    Except PyErr (Option (List String)) × List CIEvent :=
  if image_id.isSome = true ∧ env.image_found = false then
    (Except.error (PyErr.runtimeError
      "The specified Amazon Machine Image (AMI) could not be found."), [CIEvent.connectEC2])
  else
    let events0 := [CIEvent.connectEC2, CIEvent.runInstances env.run_ids]
    match tagRetryLoop "InvalidInstanceID.NotFound" env.tag_attempts 0 env.tag_fuel with
    | Except.error e => (Except.error e, events0)
    | Except.ok none => (Except.ok none, events0)
    | Except.ok (some _) =>
      let events1 := events0 ++ [CIEvent.instancesTagged]
      match eniFetchLoop env.eni_fetch 0 env.eni_fuel with
      | Except.error e => (Except.error e, events1)
      | Except.ok none => (Except.ok none, events1)
      | Except.ok (some eni_ids) =>
        let events2 := events1 ++ [CIEvent.enisFetched eni_ids]
        match tagRetryLoop "InvalidNetworkInterfaceID.NotFound" env.eni_tag_attempts 0
            env.eni_tag_fuel with
        | Except.error e => (Except.error e, events2)
        | Except.ok none => (Except.ok none, events2)
        | Except.ok (some _) =>
          (Except.ok (some env.refreshed_ids),
            events2 ++ [CIEvent.enisTagged, CIEvent.refreshedInstances])

theorem tagRetryLoop_shift (swallow : String) (att : Nat → TagAttempt) (t fuel : Nat)
    (h : att t = TagAttempt.success false ∨ att t = TagAttempt.ec2Error swallow) :
    tagRetryLoop swallow att t (fuel+1) = tagRetryLoop swallow att (t+1) fuel := by
  rcases h with h | h <;> simp [tagRetryLoop, h]

theorem tagRetryLoop_skip (swallow : String) (att : Nat → TagAttempt) :
    ∀ (n s fuel : Nat),
      (∀ t, s ≤ t → t < s + n →
        att t = TagAttempt.success false ∨ att t = TagAttempt.ec2Error swallow) →
      tagRetryLoop swallow att s (n + fuel) = tagRetryLoop swallow att (s + n) fuel := by
  intro n
  induction n with
  | zero =>
    intro s fuel _
    simp
  | succ m ih =>
    intro s fuel h
    have hs : att s = TagAttempt.success false ∨ att s = TagAttempt.ec2Error swallow :=
      h s (le_refl s) (by omega)
    rw [show m + 1 + fuel = (m + fuel) + 1 by omega]
    rw [tagRetryLoop_shift swallow att s (m + fuel) hs]
    rw [ih (s+1) fuel (fun t ht1 ht2 => h t (by omega) (by omega))]
    rw [show s + 1 + m = s + (m + 1) by omega]

/-- A sample oracle environment for `create_security_group`. -/
def sampleSGEnv (att : Nat → TagAttempt) : SGEnv :=
  ⟨false, Except.ok [], "sg-00000001", att, 4⟩

/-- A sample oracle environment for `create_instance`. -/
def sampleCIEnv (tagAtt : Nat → TagAttempt) : CIEnv :=
  ⟨true, ["i-1"], tagAtt, 3, fun _ => EniFetch.ok ["eni-1"], 3,
    fun _ => TagAttempt.success true, 3, ["i-1"]⟩

/-- C3 counterexample: when `create_tags` raises an EC2 error with the
unrelated code 'Throttling', `create_security_group` raises the freshly
constructed `EC2ResponseError` of line 175 — it does not re-raise the
caught 'Throttling' error, contrary to the claim's "the error is
re-raised to the caller". -/
theorem create_tags_reraise_counterexample :
    (create_security_group (fun _ => 5432)
        (sampleSGEnv (fun _ => TagAttempt.ec2Error "Throttling"))
        (fun _ => []) none [] none).1 =
      Except.error PyErr.freshEC2ResponseError ∧
    (Except.error PyErr.freshEC2ResponseError : Except PyErr (Option String)) ≠
      Except.error (PyErr.reraised "Throttling") := by
  constructor
  · rfl
  · intro h
    exact PyErr.noConfusion (Except.error.inj h)

/-- C3 (amended): the tag-retry loops keep retrying `create_tags` until it
succeeds, swallowing only the per-site registration codes ('InvalidID' for
security groups, 'InvalidInstanceID.NotFound' for instances,
'InvalidNetworkInterfaceID.NotFound' for network interfaces); on an EC2
error with any other code a freshly constructed EC2ResponseError (not a
re-raise of the caught error) propagates and the function does not return
normally. -/
theorem create_tags_retry_spec :
    (∀ (swallow : String) (att : Nat → TagAttempt) (n : Nat),
      (∀ t, t < n → att t = TagAttempt.success false ∨ att t = TagAttempt.ec2Error swallow) →
      ((att n = TagAttempt.success true →
        tagRetryLoop swallow att 0 (n+1) = Except.ok (some n)) ∧
       (∀ c, att n = TagAttempt.ec2Error c → c ≠ swallow →
        tagRetryLoop swallow att 0 (n+1) = Except.error PyErr.freshEC2ResponseError))) ∧
    (∀ (INBOUND_PORT : String → Int) (env : SGEnv) (heap : RuleHeap)
        (backend : Option String) (inb : List Rule) (arg : Option Nat) (e : PyErr),
      sgExisting env = none →
      (processRules inb (effectiveOutbound (sgHeapAfter INBOUND_PORT heap backend arg) arg)).1
        = none →
      tagRetryLoop "InvalidID" env.tag_attempts 0 env.tag_fuel = Except.error e →
      (create_security_group INBOUND_PORT env heap backend inb arg).1 = Except.error e) ∧
    (∀ (env : CIEnv) (img : Option String) (e : PyErr),
      ¬(img.isSome = true ∧ env.image_found = false) →
      tagRetryLoop "InvalidInstanceID.NotFound" env.tag_attempts 0 env.tag_fuel
        = Except.error e →
      (create_instance env img).1 = Except.error e) ∧
    (∀ (env : CIEnv) (img : Option String) (k : Nat) (ids : List String) (e : PyErr),
      ¬(img.isSome = true ∧ env.image_found = false) →
      tagRetryLoop "InvalidInstanceID.NotFound" env.tag_attempts 0 env.tag_fuel
        = Except.ok (some k) →
      eniFetchLoop env.eni_fetch 0 env.eni_fuel = Except.ok (some ids) →
      tagRetryLoop "InvalidNetworkInterfaceID.NotFound" env.eni_tag_attempts 0 env.eni_tag_fuel
        = Except.error e →
      (create_instance env img).1 = Except.error e) ∧
    (∀ (env : CIEnv) (img : Option String) (k : Nat) (ids : List String) (k2 : Nat),
      ¬(img.isSome = true ∧ env.image_found = false) →
      tagRetryLoop "InvalidInstanceID.NotFound" env.tag_attempts 0 env.tag_fuel
        = Except.ok (some k) →
      eniFetchLoop env.eni_fetch 0 env.eni_fuel = Except.ok (some ids) →
      tagRetryLoop "InvalidNetworkInterfaceID.NotFound" env.eni_tag_attempts 0 env.eni_tag_fuel
        = Except.ok (some k2) →
      (create_instance env img).1 = Except.ok (some env.refreshed_ids)) := by
  refine ⟨?_, ?_, ?_, ?_, ?_⟩
  · intro swallow att n hbefore
    have hrun : tagRetryLoop swallow att 0 (n+1) = tagRetryLoop swallow att n 1 := by
      have := tagRetryLoop_skip swallow att n 0 1
        (fun t ht1 ht2 => hbefore t (by omega))
      simpa using this
    constructor
    · intro hsucc
      rw [hrun]
      simp [tagRetryLoop, hsucc]
    · intro c herr hne
      rw [hrun]
      simp [tagRetryLoop, herr, hne]
  · intro INBOUND_PORT env heap backend inb arg e hx hpr htag
    simp only [create_security_group, hx]
    simp only [hpr, htag]
  · intro env img e himg htag
    simp only [create_instance, if_neg himg]
    simp only [htag]
  · intro env img k ids e himg htag heni htag2
    simp only [create_instance, if_neg himg]
    simp only [htag, heni, htag2]
  · intro env img k ids k2 himg htag heni htag2
    simp only [create_instance, if_neg himg]
    simp only [htag, heni, htag2]

theorem create_tags_retry_spec_witness :
    (tagRetryLoop "InvalidID" (fun t => if t = 0 then TagAttempt.ec2Error "InvalidID"
        else TagAttempt.success true) 0 2 = Except.ok (some 1)) ∧
    (tagRetryLoop "InvalidID" (fun t => if t = 0 then TagAttempt.success false
        else TagAttempt.ec2Error "Throttling") 0 2 =
      Except.error PyErr.freshEC2ResponseError) ∧
    ((create_security_group (fun _ => 5432)
        (sampleSGEnv (fun _ => TagAttempt.ec2Error "Throttling")) (fun _ => []) none [] none).1 =
      Except.error PyErr.freshEC2ResponseError) ∧
    ((create_instance (sampleCIEnv (fun _ => TagAttempt.ec2Error "AuthFailure")) none).1 =
      Except.error PyErr.freshEC2ResponseError) ∧
    ((create_instance (sampleCIEnv (fun _ => TagAttempt.success true)) none).1 =
      Except.ok (some ["i-1"])) :=
  ⟨(create_tags_retry_spec.1 "InvalidID"
      (fun t => if t = 0 then TagAttempt.ec2Error "InvalidID" else TagAttempt.success true) 1
      (by decide)).1 (by decide),
   (create_tags_retry_spec.1 "InvalidID"
      (fun t => if t = 0 then TagAttempt.success false else TagAttempt.ec2Error "Throttling") 1
      (by decide)).2 "Throttling" (by decide) (by decide),
   create_tags_retry_spec.2.1 (fun _ => 5432)
      (sampleSGEnv (fun _ => TagAttempt.ec2Error "Throttling")) (fun _ => []) none [] none
      PyErr.freshEC2ResponseError rfl rfl rfl,
   create_tags_retry_spec.2.2.1 (sampleCIEnv (fun _ => TagAttempt.ec2Error "AuthFailure")) none
      PyErr.freshEC2ResponseError (by simp [sampleCIEnv]) rfl,
   create_tags_retry_spec.2.2.2.2 (sampleCIEnv (fun _ => TagAttempt.success true)) none
      0 ["eni-1"] 0 (by simp [sampleCIEnv]) rfl rfl rfl⟩

/-- C9: `allowed_outbound_traffic` defaults to a single shared mutable
list: every call that supplies a `database_backend` appends
`('TCP:<backend port>', '0.0.0.0/0')` in place to whatever list object was
passed (the shared default when the argument is omitted), the default is
not restored afterwards, and a later call that omits the argument still
sees the appended rule. -/
theorem default_outbound_traffic_shared (INBOUND_PORT : String → Int) (backend : String) :
    (∀ (env : SGEnv) (heap : RuleHeap) (inb : List Rule),
      sgExisting env = none →
      (create_security_group INBOUND_PORT env heap (some backend) inb none).2.1 =
        Function.update heap DEFAULT_OUTBOUND_REF
          (heap DEFAULT_OUTBOUND_REF ++ [backendRule (INBOUND_PORT backend)])) ∧
    (∀ (env : SGEnv) (heap : RuleHeap) (inb : List Rule) (r : Nat),
      sgExisting env = none →
      (create_security_group INBOUND_PORT env heap (some backend) inb (some r)).2.1 =
        Function.update heap r (heap r ++ [backendRule (INBOUND_PORT backend)])) ∧
    (∀ (env : SGEnv) (heap : RuleHeap) (inb : List Rule) (arg : Option Nat),
      sgExisting env = none →
      (create_security_group INBOUND_PORT env heap none inb arg).2.1 = heap) ∧
    (∀ (env1 : SGEnv) (heap : RuleHeap) (inb1 : List Rule),
      sgExisting env1 = none →
      backendRule (INBOUND_PORT backend) ∈
        effectiveOutbound
          ((create_security_group INBOUND_PORT env1 heap (some backend) inb1 none).2.1)
          none) := by
  refine ⟨?_, ?_, ?_, ?_⟩
  · intro env heap inb hx
    simp [create_security_group, hx, sgHeapAfter, DEFAULT_OUTBOUND_REF]
  · intro env heap inb r hx
    simp [create_security_group, hx, sgHeapAfter]
  · intro env heap inb arg hx
    simp [create_security_group, hx, sgHeapAfter]
  · intro env1 heap inb1 hx
    simp [create_security_group, hx, sgHeapAfter, effectiveOutbound,
      DEFAULT_OUTBOUND_REF, Function.update]

theorem default_outbound_traffic_shared_witness :
    ((create_security_group (fun _ => 5432)
        (sampleSGEnv (fun _ => TagAttempt.success true)) (fun _ => [])
        (some "postgresql") [] none).2.1 =
      Function.update (fun _ => ([] : List Rule)) DEFAULT_OUTBOUND_REF
        ((fun _ => ([] : List Rule)) DEFAULT_OUTBOUND_REF ++
          [backendRule ((fun _ => (5432 : Int)) "postgresql")])) ∧
    ((create_security_group (fun _ => 5432)
        (sampleSGEnv (fun _ => TagAttempt.success true)) (fun _ => []) none []
        (some 3)).2.1 = (fun _ => ([] : List Rule))) ∧
    (backendRule ((fun _ => (5432 : Int)) "postgresql") ∈
      effectiveOutbound
        ((create_security_group (fun _ => 5432)
          (sampleSGEnv (fun _ => TagAttempt.success true)) (fun _ => [])
          (some "postgresql") [] none).2.1)
        none) :=
  ⟨(default_outbound_traffic_shared (fun _ => 5432) "postgresql").1
      (sampleSGEnv (fun _ => TagAttempt.success true)) (fun _ => []) [] rfl,
   (default_outbound_traffic_shared (fun _ => 5432) "postgresql").2.2.1
      (sampleSGEnv (fun _ => TagAttempt.success true)) (fun _ => []) [] (some 3) rfl,
   (default_outbound_traffic_shared (fun _ => 5432) "postgresql").2.2.2
      (sampleSGEnv (fun _ => TagAttempt.success true)) (fun _ => []) [] rfl⟩

/-! ## compute.py: `rotate_instances` (claims C1, C2, C10) -/

/-- An EC2 instance, restricted to the fields `rotate_instances` reads. -/
structure Instance where
  id : String
  subnet_id : String
deriving DecidableEq, Repr

/-- The load balancer's health oracle: poll index → instance id → reported
state (`'InService'`, `'OutOfService'`, `'Unknown'`, …). -/
abbrev Health := Nat → String → String

/-- Events of a rotation, in execution order. -/
inductive RotEvent
  | register (ids : List String)
  | poll (states : List (String × String))
  | deregister (inst : Instance)
  | terminate (inst : Instance)
deriving DecidableEq, Repr

/-- Outcome of a rotation: `ok` carries the final (mutated) incoming list
on normal return; `fuelOut` means the polling loop was still running when
the fuel ran out; `err` is a StopIteration escaping a `next(...)` call. -/
inductive RotResult
  | ok (instances : List Instance)
  | fuelOut
  | err
deriving DecidableEq, Repr

/-- Python `list.remove(x)`: drop the first element equal to `x`. -/
def removeFirst (x : Instance) : List Instance → List Instance
  | [] => []
  | y :: ys => if y = x then ys else y :: removeFirst x ys

/-- The ids reported `'InService'` by a health report, in report order
(the list the `for instance_id in [...]` loop iterates, line 604). -/
def inServiceIds (states : List (String × String)) : List String :=
  states.filterMap (fun s => if s.2 = "InService" then some s.1 else none)

/-- The body of the `for instance_id in [...]` loop (lines 604-620): for
each id reported `'InService'`, find the incoming instance (`next(...)`;
StopIteration — embedded as `none` — if the generator is exhausted), find
an outgoing instance in the same subnet (likewise), deregister it,
optionally terminate it, and remove the incoming instance from the list
in place. -/
def processInService (old_instances : List Instance) (term : Bool) :
    List String → List Instance → Option (List Instance) × List RotEvent
  | [], instances => (some instances, [])
  | iid :: iids, instances =>
    match instances.find? (fun i => i.id == iid) with
    | none => (none, [])
    | some inst =>
      match old_instances.find? (fun o => o.subnet_id == inst.subnet_id) with
      | none => (none, [])
      | some old =>
        let evs := RotEvent.deregister old ::
          (if term then [RotEvent.terminate old] else [])
        let r := processInService old_instances term iids (removeFirst inst instances)
        (r.1, evs ++ r.2)

/-- The `while 'OutOfService' in [...]` polling loop (lines 599-623).
`t` is the index of the next health poll; `states` is the report the loop
condition inspects (the pre-loop report on entry, thereafter the report
fetched by the previous iteration over the then-current instances). -/
def rotateLoop (health : Health) (old_instances : List Instance) (term : Bool) :
    Nat → Nat → List Instance → List (String × String) → RotResult × List RotEvent
  | 0, _, instances, states =>
    if states.any (fun s => s.2 == "OutOfService") then (RotResult.fuelOut, [])
    else (RotResult.ok instances, [])
  | fuel+1, t, instances, states =>
    if states.any (fun s => s.2 == "OutOfService") then
      let states' := instances.map (fun i => (i.id, health t i.id))
      let pr := processInService old_instances term (inServiceIds states') instances
      match pr.1 with
      | none => (RotResult.err, RotEvent.poll states' :: pr.2)
      | some instances' =>
        let r := rotateLoop health old_instances term fuel (t+1) instances' states'
        (r.1, RotEvent.poll states' :: pr.2 ++ r.2)
    else (RotResult.ok instances, [])

/-- `compute.rotate_instances` (lines 575-627).  `old_instances` is the
EC2 lookup of the load balancer's registered instances (lines 580-581); it
is empty exactly when the load balancer had none, in which case the whole
rotation block after `register_instances` is skipped. -/
def rotate_instances (health : Health) (old_instances instances : List Instance)
    (terminate_outgoing_instances : Bool) (fuel : Nat) : RotResult × List RotEvent :=
  let regEv := RotEvent.register (instances.map (fun i => i.id))
  if old_instances.isEmpty then (RotResult.ok instances, [regEv])
  else
    let states0 := instances.map (fun i => (i.id, health 0 i.id))
    let r := rotateLoop health old_instances terminate_outgoing_instances fuel 1
      instances states0
    (r.1, regEv :: RotEvent.poll states0 :: r.2)

/-- A load balancer that reports every instance `'OutOfService'` at every
poll. -/
def alwaysOutOfService : Health := fun _ _ => "OutOfService"

theorem rotateLoop_alwaysOut (old : List Instance) (term : Bool) :
    ∀ (fuel t : Nat) (instances : List Instance) (states : List (String × String)),
      instances ≠ [] →
      states.any (fun s => s.2 == "OutOfService") = true →
      (rotateLoop alwaysOutOfService old term fuel t instances states).1 =
        RotResult.fuelOut := by
  intro fuel
  induction fuel with
  | zero =>
    intro t inst states hne hany
    simp [rotateLoop, hany]
  | succ m ih =>
    intro t inst states hne hany
    have hids : inServiceIds (inst.map (fun i => (i.id, alwaysOutOfService t i.id))) = [] := by
      simp [inServiceIds, alwaysOutOfService, List.filterMap_map, Function.comp]
    have hany' : (inst.map (fun i => (i.id, alwaysOutOfService t i.id))).any
        (fun s => s.2 == "OutOfService") = true := by
      cases inst with
      | nil => exact absurd rfl hne
      | cons i is => simp [alwaysOutOfService]
    simp only [rotateLoop, hany, if_true, hids]
    simp only [processInService]
    exact ih (t+1) inst _ hne hany'

/-- C1 counterexample: with one incoming instance reported 'OutOfService'
at the pre-loop poll and a load balancer that keeps reporting
'OutOfService', no fuel bound N makes the polling loop finish —
`rotate_instances` does not terminate, so the loop is not bounded by any
fixed number of iterations. -/
theorem rotate_polling_unbounded_counterexample :
    ¬ ∃ N : Nat,
      (rotate_instances alwaysOutOfService [⟨"i-old", "subnet-1"⟩]
        [⟨"i-new", "subnet-1"⟩] true N).1 ≠ RotResult.fuelOut := by
  rintro ⟨N, hN⟩
  apply hN
  unfold rotate_instances
  simp only [List.isEmpty_cons, Bool.false_eq_true, if_false]
  exact rotateLoop_alwaysOut [⟨"i-old", "subnet-1"⟩] true N 1
    [⟨"i-new", "subnet-1"⟩] _ (by decide) (by decide)

theorem rotateLoop_settles (health : Health) (old : List Instance) (term : Bool)
    (T : Nat) (hsettle : ∀ t id, T ≤ t → health t id ≠ "OutOfService") :
    ∀ (fuel t : Nat) (instances : List Instance) (states : List (String × String)),
      T + 1 ≤ t + fuel →
      ((∃ s ∈ states, s.2 = "OutOfService") → t ≤ T) →
      (rotateLoop health old term fuel t instances states).1 ≠ RotResult.fuelOut := by
  intro fuel
  induction fuel with
  | zero =>
    intro t inst states hle hst
    by_cases hany : states.any (fun s => s.2 == "OutOfService") = true
    · exfalso
      rw [List.any_eq_true] at hany
      obtain ⟨s, hs, hoos⟩ := hany
      have := hst ⟨s, hs, by simpa using hoos⟩
      omega
    · simp only [rotateLoop]
      rw [if_neg hany]
      simp
  | succ m ih =>
    intro t inst states hle hst
    by_cases hany : states.any (fun s => s.2 == "OutOfService") = true
    · simp only [rotateLoop, hany, if_true]
      have hstates' : (∃ s ∈ inst.map (fun i => (i.id, health t i.id)),
          s.2 = "OutOfService") → t + 1 ≤ T := by
        rintro ⟨s, hs, hoos⟩
        rw [List.mem_map] at hs
        obtain ⟨i, _, rfl⟩ := hs
        by_contra hgt
        exact hsettle t i.id (by omega) hoos
      cases hpr : (processInService old term
          (inServiceIds (inst.map (fun i => (i.id, health t i.id)))) inst).1 with
      | none =>
        simp only [hpr]
        intro h
        exact RotResult.noConfusion h
      | some inst' =>
        simp only [hpr]
        exact ih (t+1) inst' _ (by omega) hstates'
    · simp only [rotateLoop]
      rw [if_neg hany]
      simp

/-- C1 (amended): the polling loop in `rotate_instances` is not bounded by
any fixed iteration count; it terminates exactly when the load balancer
stops reporting 'OutOfService' — if no poll from index T onward reports
'OutOfService' for any instance, fuel T+1 suffices for the loop to
finish. -/
theorem rotate_terminates_when_health_settles
    (health : Health) (old_instances instances : List Instance) (term : Bool) (T : Nat)
    (hsettle : ∀ t id, T ≤ t → health t id ≠ "OutOfService") :
    (rotate_instances health old_instances instances term (T+1)).1 ≠ RotResult.fuelOut := by
  unfold rotate_instances
  by_cases hemp : old_instances.isEmpty = true
  · rw [if_pos hemp]
    intro h
    exact RotResult.noConfusion h
  · rw [if_neg hemp]
    apply rotateLoop_settles health old_instances term T hsettle (T+1) 1 instances _
      (by omega)
    rintro ⟨s, hs, hoos⟩
    rw [List.mem_map] at hs
    obtain ⟨i, _, rfl⟩ := hs
    by_contra hgt
    exact hsettle 0 i.id (by omega) hoos

/-- A load balancer that reports 'OutOfService' at the pre-loop poll and
'InService' from then on. -/
def settlingHealth : Health := fun t _ => if t = 0 then "OutOfService" else "InService"

theorem rotate_terminates_when_health_settles_witness :
    (rotate_instances settlingHealth [⟨"i-old", "subnet-1"⟩] [⟨"i-new", "subnet-1"⟩]
      true 2).1 ≠ RotResult.fuelOut :=
  rotate_terminates_when_health_settles settlingHealth [⟨"i-old", "subnet-1"⟩]
    [⟨"i-new", "subnet-1"⟩] true 1
    (by
      intro t id ht
      unfold settlingHealth
      rw [if_neg (by omega)]
      decide)

/-- No deregistration or termination occurs before the registration of
`ids` (all incoming ids): scanning the trace left to right, a
`register ids` event must come before the first deregister/terminate. -/
def registeredBeforeDereg (ids : List String) : List RotEvent → Bool
  | [] => true
  | RotEvent.register ids' :: rest =>
    if ids' = ids then true else registeredBeforeDereg ids rest
  | RotEvent.poll _ :: rest => registeredBeforeDereg ids rest
  | RotEvent.deregister _ :: _ => false
  | RotEvent.terminate _ :: _ => false

/-- `o` may be deregistered/terminated now: some already-seen poll
reported 'InService' for an incoming instance residing in `o`'s subnet. -/
def rotJustify (incoming : List Instance) (polls : List (List (String × String)))
    (o : Instance) : Bool :=
  polls.any (fun st => incoming.any (fun i =>
    i.subnet_id == o.subnet_id && decide ((i.id, "InService") ∈ st)))

/-- Every deregistration and termination in the trace is preceded by a
justifying poll (`polls` accumulates the polls already scanned). -/
def rotateTraceJustified (incoming : List Instance) :
    List (List (String × String)) → List RotEvent → Bool
  | _, [] => true
  | polls, RotEvent.poll st :: rest => rotateTraceJustified incoming (st :: polls) rest
  | polls, RotEvent.register _ :: rest => rotateTraceJustified incoming polls rest
  | polls, RotEvent.deregister o :: rest =>
    rotJustify incoming polls o && rotateTraceJustified incoming polls rest
  | polls, RotEvent.terminate o :: rest =>
    rotJustify incoming polls o && rotateTraceJustified incoming polls rest

theorem removeFirst_subset (x : Instance) :
    ∀ (l : List Instance) (y : Instance), y ∈ removeFirst x l → y ∈ l := by
  intro l
  induction l with
  | nil => intro y h; exact absurd h (by simp [removeFirst])
  | cons z zs ih =>
    intro y h
    unfold removeFirst at h
    by_cases hz : z = x
    · rw [if_pos hz] at h
      exact List.mem_cons_of_mem z h
    · rw [if_neg hz] at h
      rcases List.mem_cons.mp h with h | h
      · exact h ▸ List.mem_cons_self z zs
      · exact List.mem_cons_of_mem z (ih y h)

theorem inServiceIds_mem {states : List (String × String)} {iid : String}
    (h : iid ∈ inServiceIds states) : (iid, "InService") ∈ states := by
  unfold inServiceIds at h
  rw [List.mem_filterMap] at h
  obtain ⟨s, hs, heq⟩ := h
  obtain ⟨s1, s2⟩ := s
  dsimp only at heq
  by_cases h2 : s2 = "InService"
  · rw [if_pos h2] at heq
    obtain rfl := Option.some.inj heq
    rw [← h2]
    exact hs
  · rw [if_neg h2] at heq
    exact Option.noConfusion heq

/-- Shape of the events of one body pass: only deregistrations and
terminations, each of an outgoing instance sharing its subnet with an
instance of the current list whose id the processed id-list contains. -/
theorem processInService_events_shape (old : List Instance) (term : Bool) :
    ∀ (iids : List String) (cur : List Instance),
      ∀ e ∈ (processInService old term iids cur).2,
        ∃ o inst iid, (e = RotEvent.deregister o ∨ e = RotEvent.terminate o) ∧
          inst ∈ cur ∧ iid ∈ iids ∧ inst.id = iid ∧ o.subnet_id = inst.subnet_id := by
  intro iids
  induction iids with
  | nil =>
    intro cur e he
    exact absurd he (by simp [processInService])
  | cons iid rest ih =>
    intro cur e he
    unfold processInService at he
    cases hfind : cur.find? (fun i => i.id == iid) with
    | none =>
      rw [hfind] at he
      exact absurd he (by simp)
    | some inst =>
      rw [hfind] at he
      dsimp only at he
      cases hfind2 : old.find? (fun o => o.subnet_id == inst.subnet_id) with
      | none =>
        rw [hfind2] at he
        exact absurd he (by simp)
      | some o =>
        rw [hfind2] at he
        dsimp only at he
        have hinst : inst ∈ cur := List.mem_of_find?_eq_some hfind
        have hid : inst.id = iid := by
          have := List.find?_some hfind
          simpa using this
        have hsub : o.subnet_id = inst.subnet_id := by
          have := List.find?_some hfind2
          simpa using this
        simp only [List.cons_append, List.mem_cons, List.mem_append] at he
        rcases he with he | he
        · exact ⟨o, inst, iid, Or.inl he, hinst, List.mem_cons_self _ _, hid, hsub⟩
        rcases he with he | he
        · have : e = RotEvent.terminate o := by
            cases term with
            | true => simpa using he
            | false => exact absurd he (by simp)
          exact ⟨o, inst, iid, Or.inr this, hinst, List.mem_cons_self _ _, hid, hsub⟩
        · obtain ⟨o', inst', iid', hor, hin', hiid', hid', hsub'⟩ :=
            ih (removeFirst inst cur) e he
          exact ⟨o', inst', iid', hor, removeFirst_subset inst cur inst' hin',
            List.mem_cons_of_mem _ hiid', hid', hsub'⟩

theorem processInService_result_subset (old : List Instance) (term : Bool) :
    ∀ (iids : List String) (cur fin : List Instance),
      (processInService old term iids cur).1 = some fin →
      ∀ i ∈ fin, i ∈ cur := by
  intro iids
  induction iids with
  | nil =>
    intro cur fin h i hi
    obtain rfl := Option.some.inj h
    exact hi
  | cons iid rest ih =>
    intro cur fin h i hi
    unfold processInService at h
    cases hfind : cur.find? (fun i => i.id == iid) with
    | none =>
      rw [hfind] at h
      exact Option.noConfusion h
    | some inst =>
      rw [hfind] at h
      dsimp only at h
      cases hfind2 : old.find? (fun o => o.subnet_id == inst.subnet_id) with
      | none =>
        rw [hfind2] at h
        exact Option.noConfusion h
      | some o =>
        rw [hfind2] at h
        dsimp only at h
        exact removeFirst_subset inst cur i (ih (removeFirst inst cur) fin h i hi)

theorem rotateTraceJustified_append_of_justified (incoming : List Instance)
    (polls : List (List (String × String))) :
    ∀ (pevs rest : List RotEvent),
      (∀ e ∈ pevs, ∃ o, (e = RotEvent.deregister o ∨ e = RotEvent.terminate o) ∧
        rotJustify incoming polls o = true) →
      rotateTraceJustified incoming polls (pevs ++ rest) =
        rotateTraceJustified incoming polls rest := by
  intro pevs
  induction pevs with
  | nil => intro rest _; rfl
  | cons e es ih =>
    intro rest h
    obtain ⟨o, hor, hj⟩ := h e (List.mem_cons_self e es)
    have hrest : ∀ e ∈ es, ∃ o, (e = RotEvent.deregister o ∨ e = RotEvent.terminate o) ∧
        rotJustify incoming polls o = true :=
      fun e' he' => h e' (List.mem_cons_of_mem e he')
    rcases hor with rfl | rfl
    · show rotateTraceJustified incoming polls (RotEvent.deregister o :: (es ++ rest)) = _
      simp only [rotateTraceJustified, hj, Bool.true_and]
      exact ih rest hrest
    · show rotateTraceJustified incoming polls (RotEvent.terminate o :: (es ++ rest)) = _
      simp only [rotateTraceJustified, hj, Bool.true_and]
      exact ih rest hrest

theorem rotateLoop_justified (health : Health) (old : List Instance) (term : Bool)
    (incoming : List Instance) :
    ∀ (fuel t : Nat) (cur : List Instance) (states : List (String × String))
      (polls : List (List (String × String))),
      (∀ i ∈ cur, i ∈ incoming) →
      rotateTraceJustified incoming polls
        (rotateLoop health old term fuel t cur states).2 = true := by
  intro fuel
  induction fuel with
  | zero =>
    intro t cur states polls _
    by_cases hany : states.any (fun s => s.2 == "OutOfService") = true
    · simp [rotateLoop, hany, rotateTraceJustified]
    · simp [rotateLoop, hany, rotateTraceJustified]
  | succ m ih =>
    intro t cur states polls hsub
    by_cases hany : states.any (fun s => s.2 == "OutOfService") = true
    · have hpevs : ∀ e ∈ (processInService old term
          (inServiceIds (cur.map (fun i => (i.id, health t i.id)))) cur).2,
          ∃ o, (e = RotEvent.deregister o ∨ e = RotEvent.terminate o) ∧
            rotJustify incoming
              ((cur.map (fun i => (i.id, health t i.id))) :: polls) o = true := by
        intro e he
        obtain ⟨o, inst, iid, hor, hin, hiid, hid, hsub2⟩ :=
          processInService_events_shape old term _ cur e he
        refine ⟨o, hor, ?_⟩
        unfold rotJustify
        rw [List.any_eq_true]
        refine ⟨cur.map (fun i => (i.id, health t i.id)), List.mem_cons_self _ _, ?_⟩
        rw [List.any_eq_true]
        refine ⟨inst, hsub inst hin, ?_⟩
        rw [Bool.and_eq_true]
        refine ⟨by rw [beq_iff_eq]; exact hsub2.symm, ?_⟩
        rw [decide_eq_true_eq, hid]
        exact inServiceIds_mem hiid
      cases hpr : (processInService old term
          (inServiceIds (cur.map (fun i => (i.id, health t i.id)))) cur).1 with
      | none =>
        simp only [rotateLoop, hany, if_true, hpr]
        show rotateTraceJustified incoming polls (RotEvent.poll _ :: _) = true
        simp only [rotateTraceJustified]
        rw [← List.append_nil (processInService old term
          (inServiceIds (cur.map (fun i => (i.id, health t i.id)))) cur).2]
        rw [rotateTraceJustified_append_of_justified incoming _ _ [] hpevs]
        rfl
      | some cur' =>
        simp only [rotateLoop, hany, if_true, hpr]
        show rotateTraceJustified incoming polls (RotEvent.poll _ :: (_ ++ _)) = true
        simp only [rotateTraceJustified]
        rw [rotateTraceJustified_append_of_justified incoming _ _ _ hpevs]
        exact ih (t+1) cur' _ _
          (fun i hi => hsub i (processInService_result_subset old term _ cur cur' hpr i hi))
    · simp [rotateLoop, hany, rotateTraceJustified]

/-- C2: all incoming instances are registered with the load balancer
before any outgoing instance is deregistered, and an outgoing instance is
never deregistered (nor, when terminate_outgoing_instances is set,
terminated) before some incoming instance residing in the same subnet has
been reported 'InService' by the load balancer. -/
theorem rotate_register_first_and_justified
    (health : Health) (old_instances instances : List Instance) (term : Bool) (fuel : Nat) :
    registeredBeforeDereg (instances.map (fun i => i.id))
      (rotate_instances health old_instances instances term fuel).2 = true ∧
    rotateTraceJustified instances []
      (rotate_instances health old_instances instances term fuel).2 = true := by
  unfold rotate_instances
  by_cases hemp : old_instances.isEmpty = true
  · rw [if_pos hemp]
    constructor
    · simp [registeredBeforeDereg]
    · simp [rotateTraceJustified]
  · rw [if_neg hemp]
    constructor
    · simp [registeredBeforeDereg]
    · show rotateTraceJustified instances [] (RotEvent.register _ :: RotEvent.poll _ :: _) = true
      simp only [rotateTraceJustified]
      exact rotateLoop_justified health old_instances term instances fuel 1 instances _ _
        (fun i hi => hi)

/-- Some poll in the trace reported the id `'InService'`. -/
def pollReportedInService (evs : List RotEvent) (iid : String) : Bool :=
  evs.any (fun e => match e with
    | RotEvent.poll st => decide ((iid, "InService") ∈ st)
    | _ => false)

/-- C10 counterexample: the load balancer has an outgoing instance and
reports the single incoming instance 'InService' already at the pre-loop
poll, so the `while 'OutOfService'` loop is never entered:
`rotate_instances` returns normally, the incoming instance was observed
'InService' by a poll, yet it is still in the caller's list — the list is
not "only those instances never observed 'InService'". -/
theorem rotate_inplace_removal_counterexample :
    (rotate_instances (fun _ _ => "InService") [⟨"i-old", "subnet-1"⟩]
        [⟨"i-new", "subnet-1"⟩] true 3).1 =
      RotResult.ok [⟨"i-new", "subnet-1"⟩] ∧
    pollReportedInService
      (rotate_instances (fun _ _ => "InService") [⟨"i-old", "subnet-1"⟩]
        [⟨"i-new", "subnet-1"⟩] true 3).2 "i-new" = true ∧
    ([⟨"i-new", "subnet-1"⟩] : List Instance) ≠
      ([⟨"i-new", "subnet-1"⟩] : List Instance).filter (fun i =>
        !(pollReportedInService
          (rotate_instances (fun _ _ => "InService") [⟨"i-old", "subnet-1"⟩]
            [⟨"i-new", "subnet-1"⟩] true 3).2 i.id)) := by
  refine ⟨rfl, rfl, ?_⟩
  decide

theorem removeFirst_of_find? :
    ∀ {cur : List Instance} {iid : String} {inst : Instance},
      (cur.map (fun i => i.id)).Nodup →
      cur.find? (fun i => i.id == iid) = some inst →
      removeFirst inst cur = cur.filter (fun i => !(i.id == iid)) := by
  intro cur
  induction cur with
  | nil =>
    intro iid inst _ h
    exact Option.noConfusion h
  | cons y ys ih =>
    intro iid inst hnd hfind
    rw [List.map_cons, List.nodup_cons] at hnd
    cases hy : (y.id == iid) with
    | true =>
      rw [List.find?_cons_of_pos ys hy] at hfind
      obtain rfl := Option.some.inj hfind
      unfold removeFirst
      rw [if_pos rfl, List.filter_cons, hy]
      simp only [Bool.not_true, Bool.false_eq_true, if_false]
      have hall : ∀ i ∈ ys, (!(i.id == iid)) = true := by
        intro i hi
        have hyid : y.id = iid := by simpa using hy
        have hne : i.id ≠ iid := by
          intro hcontra
          exact hnd.1 (by
            rw [hyid]
            rw [← hcontra]
            exact List.mem_map_of_mem (fun i => i.id) hi)
        simp [hne]
      exact (List.filter_eq_self.mpr hall).symm
    | false =>
      rw [List.find?_cons_of_neg ys (by simp [hy])] at hfind
      have hyinst : y ≠ inst := by
        intro hcontra
        have := List.find?_some hfind
        rw [← hcontra] at this
        rw [hy] at this
        exact Bool.noConfusion this
      unfold removeFirst
      rw [if_neg hyinst, List.filter_cons, hy]
      simp only [Bool.not_false, if_true]
      rw [ih hnd.2 hfind]

theorem processInService_filter (old : List Instance) (term : Bool) :
    ∀ (iids : List String) (cur fin : List Instance),
      (cur.map (fun i => i.id)).Nodup →
      (processInService old term iids cur).1 = some fin →
      fin = cur.filter (fun i => !(decide (i.id ∈ iids))) := by
  intro iids
  induction iids with
  | nil =>
    intro cur fin _ h
    obtain rfl := Option.some.inj h
    exact (List.filter_eq_self.mpr (fun a _ => by simp)).symm
  | cons iid rest ih =>
    intro cur fin hnd h
    unfold processInService at h
    cases hfind : cur.find? (fun i => i.id == iid) with
    | none =>
      rw [hfind] at h
      exact Option.noConfusion h
    | some inst =>
      rw [hfind] at h
      dsimp only at h
      cases hfind2 : old.find? (fun o => o.subnet_id == inst.subnet_id) with
      | none =>
        rw [hfind2] at h
        exact Option.noConfusion h
      | some o =>
        rw [hfind2] at h
        dsimp only at h
        have hrem : removeFirst inst cur = cur.filter (fun i => !(i.id == iid)) :=
          removeFirst_of_find? hnd hfind
        have hnd' : ((removeFirst inst cur).map (fun i => i.id)).Nodup := by
          rw [hrem]
          exact ((List.filter_sublist cur).map (fun i => i.id)).nodup hnd
        have hfin := ih (removeFirst inst cur) fin hnd' h
        rw [hrem, List.filter_filter] at hfin
        rw [hfin]
        apply List.filter_congr
        intro a _
        by_cases ha : a.id = iid
        · simp [ha]
        · by_cases hb : a.id ∈ rest <;> simp [ha, hb]

theorem pollReported_append_no_polls (pevs rest : List RotEvent) (iid : String)
    (h : ∀ e ∈ pevs, ∀ st, e ≠ RotEvent.poll st) :
    pollReportedInService (pevs ++ rest) iid = pollReportedInService rest iid := by
  unfold pollReportedInService
  rw [List.any_append]
  have hfalse : pevs.any (fun e => match e with
      | RotEvent.poll st => decide ((iid, "InService") ∈ st)
      | _ => false) = false := by
    rw [List.any_eq_false]
    intro e he
    cases e with
    | poll st => exact absurd rfl (h _ he st)
    | register ids => simp
    | deregister o => simp
    | terminate o => simp
  rw [hfalse, Bool.false_or]

theorem pollReported_cons_poll (st : List (String × String)) (rest : List RotEvent)
    (iid : String) :
    pollReportedInService (RotEvent.poll st :: rest) iid =
      (decide ((iid, "InService") ∈ st) || pollReportedInService rest iid) := by
  simp [pollReportedInService]

theorem mem_inServiceIds_iff (st : List (String × String)) (iid : String) :
    iid ∈ inServiceIds st ↔ (iid, "InService") ∈ st := by
  constructor
  · exact inServiceIds_mem
  · intro h
    unfold inServiceIds
    rw [List.mem_filterMap]
    exact ⟨(iid, "InService"), h, by simp⟩

theorem rotateLoop_filter (health : Health) (old : List Instance) (term : Bool) :
    ∀ (fuel t : Nat) (cur fin : List Instance) (states : List (String × String)),
      (cur.map (fun i => i.id)).Nodup →
      (rotateLoop health old term fuel t cur states).1 = RotResult.ok fin →
      fin = cur.filter (fun i =>
        !(pollReportedInService (rotateLoop health old term fuel t cur states).2 i.id)) := by
  intro fuel
  induction fuel with
  | zero =>
    intro t cur fin states _ hok
    by_cases hany : states.any (fun s => s.2 == "OutOfService") = true
    · simp only [rotateLoop, hany, if_true] at hok
      exact absurd hok (by simp)
    · simp only [rotateLoop] at hok ⊢
      rw [if_neg hany] at hok ⊢
      dsimp only at hok ⊢
      obtain rfl := RotResult.ok.inj hok
      simp [pollReportedInService]
  | succ m ih =>
    intro t cur fin states hnd hok
    by_cases hany : states.any (fun s => s.2 == "OutOfService") = true
    · cases hpr : (processInService old term
          (inServiceIds (cur.map (fun i => (i.id, health t i.id)))) cur).1 with
      | none =>
        simp only [rotateLoop, hany, if_true, hpr] at hok
        exact absurd hok (by simp)
      | some cur' =>
        simp only [rotateLoop, hany, if_true, hpr] at hok ⊢
        have hcur' : cur' = cur.filter (fun i =>
            !(decide (i.id ∈ inServiceIds (cur.map (fun i => (i.id, health t i.id)))))) :=
          processInService_filter old term _ cur cur' hnd hpr
        have hnd' : (cur'.map (fun i => i.id)).Nodup := by
          rw [hcur']
          exact ((List.filter_sublist cur).map (fun i => i.id)).nodup hnd
        have hrec := ih (t+1) cur' fin _ hnd' hok
        rw [hrec, hcur', List.filter_filter]
        apply List.filter_congr
        intro a _
        have hnp : ∀ e ∈ (processInService old term
            (inServiceIds (cur.map (fun i => (i.id, health t i.id)))) cur).2,
            ∀ st, e ≠ RotEvent.poll st := by
          intro e he st hcontra
          obtain ⟨o, inst, iid, hor, _⟩ :=
            processInService_events_shape old term _ cur e he
          rcases hor with rfl | rfl <;> exact RotEvent.noConfusion hcontra
        rw [List.cons_append, pollReported_cons_poll]
        rw [pollReported_append_no_polls _ _ _ hnp]
        rw [show decide (a.id ∈ inServiceIds (cur.map (fun i => (i.id, health t i.id)))) =
            decide ((a.id, "InService") ∈ cur.map (fun i => (i.id, health t i.id))) from
          decide_eq_decide.mpr (mem_inServiceIds_iff _ _)]
        cases decide ((a.id, "InService") ∈ cur.map (fun i => (i.id, health t i.id))) <;>
          cases pollReportedInService
            (rotateLoop health old term m (t+1) cur'
              (cur.map (fun i => (i.id, health t i.id)))).2 a.id <;>
          simp [hcur']
    · simp only [rotateLoop] at hok ⊢
      rw [if_neg hany] at hok ⊢
      dsimp only at hok ⊢
      obtain rfl := RotResult.ok.inj hok
      simp [pollReportedInService]

/-- C10 (amended): when the load balancer had no registered instances,
`rotate_instances` leaves the caller's list unchanged; on a normal return
the caller's list has been mutated to exactly those incoming instances
never reported 'InService' by a poll made inside the rotation loop body
(the first two trace entries are the registration and the pre-loop poll;
instances reported 'InService' only by that pre-loop poll — which merely
decides loop entry — are retained). -/
theorem rotate_inplace_removal
    (health : Health) (old_instances instances : List Instance) (term : Bool) (fuel : Nat) :
    (old_instances = [] →
      rotate_instances health old_instances instances term fuel =
        (RotResult.ok instances, [RotEvent.register (instances.map (fun i => i.id))])) ∧
    (∀ fin, (instances.map (fun i => i.id)).Nodup →
      (rotate_instances health old_instances instances term fuel).1 = RotResult.ok fin →
      fin = instances.filter (fun i =>
        !(pollReportedInService
          ((rotate_instances health old_instances instances term fuel).2.drop 2) i.id))) := by
  constructor
  · intro hemp
    unfold rotate_instances
    rw [if_pos (by simp [hemp])]
  · intro fin hnd hok
    unfold rotate_instances at hok ⊢
    by_cases hemp : old_instances.isEmpty = true
    · rw [if_pos hemp] at hok ⊢
      dsimp only at hok ⊢
      obtain rfl := RotResult.ok.inj hok
      simp [pollReportedInService]
    · rw [if_neg hemp] at hok ⊢
      dsimp only at hok ⊢
      have := rotateLoop_filter health old_instances term fuel 1 instances fin _ hnd hok
      simpa using this

theorem rotate_inplace_removal_witness :
    (rotate_instances settlingHealth [] [⟨"i-new", "subnet-1"⟩] true 2 =
      (RotResult.ok [⟨"i-new", "subnet-1"⟩],
        [RotEvent.register (([⟨"i-new", "subnet-1"⟩] : List Instance).map (fun i => i.id))])) ∧
    (([] : List Instance) =
      ([⟨"i-new", "subnet-1"⟩] : List Instance).filter (fun i =>
        !(pollReportedInService
          ((rotate_instances settlingHealth [⟨"i-old", "subnet-1"⟩]
            [⟨"i-new", "subnet-1"⟩] true 2).2.drop 2) i.id))) :=
  ⟨(rotate_inplace_removal settlingHealth [] [⟨"i-new", "subnet-1"⟩] true 2).1 rfl,
   (rotate_inplace_removal settlingHealth [⟨"i-old", "subnet-1"⟩]
      [⟨"i-new", "subnet-1"⟩] true 2).2 [] (by decide) (by decide)⟩

/-! ## compute.py: `create_nat_instance` (claim C6) -/

/-- A VPC route table, restricted to what `create_nat_instance` reads:
its id and its associations as (association id, associated subnet id)
pairs (`subnet_id` is `None` for a main-table association). -/
structure RTB where
  id : String
  associations : List (String × Option String)
deriving DecidableEq, Repr

/-- AWS interactions of `create_nat_instance`, with the nested
`create_security_group` and `create_instance` traces embedded. -/
inductive NEvent
  | connectEC2
  | connectVPC
  | sg (e : SGEvent)
  | getNatImage
  | ci (e : CIEvent)
  | modifySourceDestCheck (instId : String)
  | createRouteTable (rtbId : String)
  | waitPoll (state : String)
  | createRoute (cidr : String) (instId : String)
  | associateRouteTable (subnetId : String) (rtbId : String)
  | replaceRouteTableAssociation (assocId : String) (rtbId : String)
  | deleteRouteTable (rtbId : String)
deriving DecidableEq, Repr

/-- The orchestration phase each kind of event belongs to, numbered in
source order (compute.py lines 294-382). -/
def nEventPhase : NEvent → Nat
  | NEvent.connectEC2 => 0
  | NEvent.connectVPC => 1
  | NEvent.sg _ => 2
  | NEvent.getNatImage => 3
  | NEvent.ci CIEvent.connectEC2 => 4
  | NEvent.ci (CIEvent.runInstances _) => 5
  | NEvent.ci CIEvent.instancesTagged => 6
  | NEvent.ci (CIEvent.enisFetched _) => 7
  | NEvent.ci CIEvent.enisTagged => 8
  | NEvent.ci CIEvent.refreshedInstances => 9
  | NEvent.modifySourceDestCheck _ => 10
  | NEvent.createRouteTable _ => 11
  | NEvent.waitPoll _ => 12
  | NEvent.createRoute _ _ => 13
  | NEvent.associateRouteTable _ _ => 14
  | NEvent.replaceRouteTableAssociation _ _ => 14
  | NEvent.deleteRouteTable _ => 15

/-- What `create_nat_instance` returns: the created instance on the
normal path, or (PERMANENT creation mode) the list of already-existing
NAT instances. -/
inductive NatReturn
  | single (id : String)
  | existing (ids : List String)
deriving DecidableEq, Repr

/-- Oracles for the AWS calls made by `create_nat_instance`. -/
structure NatEnv where
  creation_mode_permanent : Bool
  existing_nat_instances : List String
  sgenv : SGEnv
  nat_image_id : String
  cienv : CIEnv
  route_table_id : String
  instance_states : Nat → String
  wait_fuel : Nat
  route_tables_at_assoc : List RTB
  route_tables_at_cleanup : List RTB
  main_route_tables : List RTB

/-- The inbound rules of the NAT security group (lines 316-317). -/
def natSGInbound (private_subnet : Subnet) : List Rule :=
  [("HTTP".toList, private_subnet.cidr_block), ("HTTPS".toList, private_subnet.cidr_block)]

/-- The outbound rules of the NAT security group (lines 318-320). -/
def natSGOutbound : List Rule :=
  [("HTTP".toList, "0.0.0.0/0".toList), ("HTTPS".toList, "0.0.0.0/0".toList),
   ("DNS".toList, "0.0.0.0/0".toList)]

/-- The `while (nat_instance.state == 'pending')` wait loop (lines
337-340): `none` when the fuel runs out with the instance still pending;
otherwise the wait-poll events performed. -/
def waitWhilePending (states : Nat → String) : Nat → Nat → Option (List NEvent)
  | k, 0 => if states k = "pending" then none else some []
  | k, fuel+1 =>
    if states k = "pending" then
      match waitWhilePending states (k+1) fuel with
      | none => none
      | some evs => some (NEvent.waitPoll "pending" :: evs)
    else some []

/-- `compute.create_nat_instance` from the `create_instance` call onward
(lines 327-382), given the trace `pre` of the events already performed and
the image id in use: create the instance (`[0]` of the returned list —
IndexError when empty); disable source/dest checking; create the private
route table; wait until the instance leaves 'pending'; add the
`0.0.0.0/0` route; associate (or re-associate, when the private subnet
already had an association) the private subnet with the new route table;
finally try to delete every route table of the VPC that has no
associations and is not the main route table (`main_route_tables[0]` —
IndexError when that lookup is empty; every `EC2ResponseError` of the
delete itself is swallowed). -/
def natInstanceRest (env : NatEnv) (private_subnet : Subnet) (pre : List NEvent)
    (imgId : String) : Except PyErr (Option NatReturn) × List NEvent :=
  let cir := create_instance env.cienv (some imgId)
  match cir.1 with
  | Except.error e => (Except.error e, pre ++ cir.2.map NEvent.ci)
  | Except.ok none => (Except.ok none, pre ++ cir.2.map NEvent.ci)
  | Except.ok (some ids) =>
    match ids with
    | [] => (Except.error (PyErr.indexError "list index out of range"),
        pre ++ cir.2.map NEvent.ci)
    | natId :: _ =>
      let pre2 := pre ++ cir.2.map NEvent.ci ++
        [NEvent.modifySourceDestCheck natId, NEvent.createRouteTable env.route_table_id]
      match waitWhilePending env.instance_states 0 env.wait_fuel with
      | none => (Except.ok none, pre2)
      | some waitEvents =>
        let pre3 := pre2 ++ waitEvents ++ [NEvent.createRoute "0.0.0.0/0" natId]
        let assocIds := env.route_tables_at_assoc.flatMap (fun rt =>
          rt.associations.filterMap (fun a =>
            if a.2 = some private_subnet.id then some a.1 else none))
        let assocEvent :=
          match assocIds with
          | a :: _ => NEvent.replaceRouteTableAssociation a env.route_table_id
          | [] => NEvent.associateRouteTable private_subnet.id env.route_table_id
        match env.main_route_tables with
        | [] => (Except.error (PyErr.indexError "list index out of range"),
            pre3 ++ [assocEvent])
        | main :: _ =>
          let empty_route_tables := env.route_tables_at_cleanup.filter
            (fun rt => rt.associations.isEmpty && !(rt.id == main.id))
          (Except.ok (some (NatReturn.single natId)),
            pre3 ++ [assocEvent] ++
              empty_route_tables.map (fun rt => NEvent.deleteRouteTable rt.id))

/-- `compute.create_nat_instance` (lines 294-382): connect to EC2 and
VPC; PERMANENT-mode existing-server check (which returns the list of
existing NAT servers); create the security group when none was given (the
call passes a fresh outbound rule list, placed at heap index 1, and a
`database_backend` of None); fetch the NAT AMI when no `image_id` was
given; then `natInstanceRest` for the remaining steps. -/
def create_nat_instance (env : NatEnv) (private_subnet : Subnet)
    (security_groups : Option (List String)) (image_id : Option String)
    (INBOUND_PORT : String → Int) (heap : RuleHeap) :
    Except PyErr (Option NatReturn) × List NEvent :=
  let base := [NEvent.connectEC2, NEvent.connectVPC]
  if env.creation_mode_permanent = true ∧ env.existing_nat_instances ≠ [] then
    (Except.ok (some (NatReturn.existing env.existing_nat_instances)), base)
  else
    let sgPair : Except PyErr (Option Unit) × List NEvent :=
      match security_groups with
      | some _ => (Except.ok (some ()), [])
      | none =>
        let r := create_security_group INBOUND_PORT env.sgenv
          (Function.update heap 1 natSGOutbound) none
          (natSGInbound private_subnet) (some 1)
        ((match r.1 with
          | Except.error e => Except.error e
          | Except.ok none => Except.ok none
          | Except.ok (some _) => Except.ok (some ())), r.2.2.map NEvent.sg)
    match sgPair.1 with
    | Except.error e => (Except.error e, base ++ sgPair.2)
    | Except.ok none => (Except.ok none, base ++ sgPair.2)
    | Except.ok (some _) =>
      let imgEvents : List NEvent :=
        match image_id with
        | none => [NEvent.getNatImage]
        | some _ => []
      natInstanceRest env private_subnet (base ++ sgPair.2 ++ imgEvents)
        (image_id.getD env.nat_image_id)

theorem mem_of_getLast?_mem {α : Type} {l : List α} {a : α} (h : a ∈ l.getLast?) :
    a ∈ l := by
  have h' : l.getLast? = some a := h
  have hne : l ≠ [] := by
    intro hl
    rw [hl] at h'
    exact Option.noConfusion h'
  rw [List.getLast?_eq_getLast l hne] at h'
  have := List.getLast_mem hne
  rwa [Option.some.inj h'] at this

theorem mem_of_head?_mem {α : Type} {l : List α} {a : α} (h : a ∈ l.head?) :
    a ∈ l := by
  have h' : l.head? = some a := h
  cases l with
  | nil => exact Option.noConfusion h'
  | cons b bs =>
    have : b = a := by
      have : some b = some a := h'
      exact Option.some.inj this
    rw [← this]
    exact List.mem_cons_self b bs

theorem chain'_le_append_of_bounds (m : Nat) {l1 l2 : List Nat}
    (h1 : List.Chain' (fun a b => a ≤ b) l1) (h2 : List.Chain' (fun a b => a ≤ b) l2)
    (hb1 : ∀ x ∈ l1, x ≤ m) (hb2 : ∀ y ∈ l2, m ≤ y) :
    List.Chain' (fun a b => a ≤ b) (l1 ++ l2) := by
  apply List.Chain'.append h1 h2
  intro x hx y hy
  exact le_trans (hb1 x (mem_of_getLast?_mem hx)) (hb2 y (mem_of_head?_mem hy))

theorem chain'_le_of_const (c : Nat) : ∀ (l : List Nat), (∀ x ∈ l, x = c) →
    List.Chain' (fun a b => a ≤ b) l := by
  intro l
  induction l with
  | nil => intro _; exact List.chain'_nil
  | cons a l ih =>
    intro h
    cases l with
    | nil => exact List.chain'_singleton a
    | cons b l' =>
      rw [List.chain'_cons]
      constructor
      · rw [h a (by simp), h b (by simp)]
      · exact ih (fun x hx => h x (List.mem_cons_of_mem a hx))

theorem lower_bound_append {l1 l2 : List Nat} {m : Nat}
    (h1 : ∀ x ∈ l1, m ≤ x) (h2 : ∀ x ∈ l2, m ≤ x) : ∀ x ∈ l1 ++ l2, m ≤ x := by
  intro x hx
  rcases List.mem_append.mp hx with h | h
  · exact h1 x h
  · exact h2 x h

theorem create_instance_ok_shape (env : CIEnv) (img : Option String) (ids : List String)
    (h : (create_instance env img).1 = Except.ok (some ids)) :
    ids = env.refreshed_ids ∧
    ∃ eids, (create_instance env img).2 =
      [CIEvent.connectEC2, CIEvent.runInstances env.run_ids, CIEvent.instancesTagged,
       CIEvent.enisFetched eids, CIEvent.enisTagged, CIEvent.refreshedInstances] := by
  by_cases himg : img.isSome = true ∧ env.image_found = false
  · rw [create_instance, if_pos himg] at h
    exact absurd h (by simp)
  · rw [create_instance, if_neg himg] at h
    rw [create_instance, if_neg himg]
    cases htag : tagRetryLoop "InvalidInstanceID.NotFound" env.tag_attempts 0 env.tag_fuel with
    | error e =>
      rw [htag] at h
      simp at h
    | ok o =>
      cases o with
      | none =>
        rw [htag] at h
        simp at h
      | some k =>
        rw [htag] at h
        dsimp only at h ⊢
        cases heni : eniFetchLoop env.eni_fetch 0 env.eni_fuel with
        | error e =>
          rw [heni] at h
          simp at h
        | ok o2 =>
          cases o2 with
          | none =>
            rw [heni] at h
            simp at h
          | some eids =>
            rw [heni] at h
            dsimp only at h ⊢
            cases htag2 : tagRetryLoop "InvalidNetworkInterfaceID.NotFound"
                env.eni_tag_attempts 0 env.eni_tag_fuel with
            | error e =>
              rw [htag2] at h
              simp at h
            | ok o3 =>
              cases o3 with
              | none =>
                rw [htag2] at h
                simp at h
              | some k2 =>
                rw [htag2] at h
                dsimp only at h ⊢
                refine ⟨?_, eids, rfl⟩
                have := Except.ok.inj h
                exact (Option.some.inj this).symm

theorem waitWhilePending_events (states : Nat → String) :
    ∀ (fuel k : Nat) (evs : List NEvent),
      waitWhilePending states k fuel = some evs →
      ∀ e ∈ evs, e = NEvent.waitPoll "pending" := by
  intro fuel
  induction fuel with
  | zero =>
    intro k evs h e he
    unfold waitWhilePending at h
    by_cases hp : states k = "pending"
    · rw [if_pos hp] at h
      exact Option.noConfusion h
    · rw [if_neg hp] at h
      obtain rfl := Option.some.inj h
      exact absurd he (by simp)
  | succ m ih =>
    intro k evs h e he
    unfold waitWhilePending at h
    by_cases hp : states k = "pending"
    · rw [if_pos hp] at h
      cases hrec : waitWhilePending states (k+1) m with
      | none =>
        rw [hrec] at h
        exact Option.noConfusion h
      | some evs' =>
        rw [hrec] at h
        obtain rfl := Option.some.inj h
        rcases List.mem_cons.mp he with rfl | he'
        · rfl
        · exact ih (k+1) evs' hrec e he'
    · rw [if_neg hp] at h
      obtain rfl := Option.some.inj h
      exact absurd he (by simp)


theorem natInstanceRest_ok_shape (env : NatEnv) (prs : Subnet) (pre : List NEvent)
    (imgId : String) (ret : NatReturn)
    (hok : (natInstanceRest env prs pre imgId).1 = Except.ok (some ret)) :
    ∃ (eids : List String) (waitEvents : List NEvent) (assocEvent : NEvent)
      (natId : String) (restIds : List String) (main : RTB) (mrest : List RTB),
      ret = NatReturn.single natId ∧
      env.cienv.refreshed_ids = natId :: restIds ∧
      env.main_route_tables = main :: mrest ∧
      (∀ e ∈ waitEvents, e = NEvent.waitPoll "pending") ∧
      (assocEvent = NEvent.associateRouteTable prs.id env.route_table_id ∨
        ∃ a, assocEvent = NEvent.replaceRouteTableAssociation a env.route_table_id) ∧
      (natInstanceRest env prs pre imgId).2 =
        (pre ++
          ([CIEvent.connectEC2, CIEvent.runInstances env.cienv.run_ids,
            CIEvent.instancesTagged, CIEvent.enisFetched eids, CIEvent.enisTagged,
            CIEvent.refreshedInstances].map NEvent.ci) ++
          [NEvent.modifySourceDestCheck natId, NEvent.createRouteTable env.route_table_id]) ++
          waitEvents ++ [NEvent.createRoute "0.0.0.0/0" natId] ++
          [assocEvent] ++
          ((env.route_tables_at_cleanup.filter
            (fun rt => rt.associations.isEmpty && !(rt.id == main.id))).map
            (fun rt => NEvent.deleteRouteTable rt.id)) := by
  unfold natInstanceRest at hok ⊢
  dsimp only at hok ⊢
  cases hcir : (create_instance env.cienv (some imgId)).1 with
  | error e =>
    rw [hcir] at hok
    simp at hok
  | ok o =>
    cases o with
    | none =>
      rw [hcir] at hok
      simp at hok
    | some ids =>
      obtain ⟨hids, eids, hcitrace⟩ := create_instance_ok_shape env.cienv (some imgId) ids hcir
      rw [hcir] at hok
      cases ids with
      | nil => simp at hok
      | cons natId restIds =>
        dsimp only at hok ⊢
        cases hwait : waitWhilePending env.instance_states 0 env.wait_fuel with
        | none =>
          rw [hwait] at hok
          simp at hok
        | some waitEvents =>
          rw [hwait] at hok
          dsimp only at hok ⊢
          cases hmain : env.main_route_tables with
          | nil =>
            rw [hmain] at hok
            simp at hok
          | cons main mrest =>
            rw [hmain] at hok
            dsimp only at hok ⊢
            have hret : ret = NatReturn.single natId :=
              (Option.some.inj (Except.ok.inj hok)).symm
            cases hassoc : env.route_tables_at_assoc.flatMap (fun rt =>
                rt.associations.filterMap (fun a =>
                  if a.2 = some prs.id then some a.1 else none)) with
            | nil =>
              refine ⟨eids, waitEvents, _, natId, restIds, main, mrest, hret,
                hids.symm, rfl,
                waitWhilePending_events env.instance_states env.wait_fuel 0 waitEvents hwait,
                Or.inl rfl, ?_⟩
              rw [hcitrace]
            | cons a rest2 =>
              refine ⟨eids, waitEvents, _, natId, restIds, main, mrest, hret,
                hids.symm, rfl,
                waitWhilePending_events env.instance_states env.wait_fuel 0 waitEvents hwait,
                Or.inr ⟨a, rfl⟩, ?_⟩
              rw [hcitrace]

theorem create_nat_instance_stage_shape (env : NatEnv) (prs : Subnet)
    (sgs : Option (List String)) (img : Option String)
    (INBOUND_PORT : String → Int) (heap : RuleHeap) (ret : NatReturn)
    (hmode : env.creation_mode_permanent = false)
    (hok : (create_nat_instance env prs sgs img INBOUND_PORT heap).1 =
      Except.ok (some ret)) :
    ∃ (sgEvents imgEvents : List NEvent) (imgId : String),
      (∀ e ∈ sgEvents, ∃ se, e = NEvent.sg se) ∧
      (imgEvents = [NEvent.getNatImage] ∨ imgEvents = []) ∧
      create_nat_instance env prs sgs img INBOUND_PORT heap =
        natInstanceRest env prs
          ([NEvent.connectEC2, NEvent.connectVPC] ++ sgEvents ++ imgEvents) imgId := by
  have hcond : ¬ (env.creation_mode_permanent = true ∧ env.existing_nat_instances ≠ []) := by
    simp [hmode]
  rw [create_nat_instance.eq_def, if_neg hcond] at hok
  rw [create_nat_instance.eq_def, if_neg hcond]
  cases sgs with
  | some gs =>
    dsimp only at hok ⊢
    cases img with
    | none => exact ⟨[], [NEvent.getNatImage], env.nat_image_id, by simp, Or.inl rfl, rfl⟩
    | some i => exact ⟨[], [], i, by simp, Or.inr rfl, rfl⟩
  | none =>
    dsimp only at hok ⊢
    cases hsgr : (create_security_group INBOUND_PORT env.sgenv
        (Function.update heap 1 natSGOutbound) none (natSGInbound prs) (some 1)).1 with
    | error e =>
      rw [hsgr] at hok
      simp at hok
    | ok o =>
      cases o with
      | none =>
        rw [hsgr] at hok
        simp at hok
      | some u =>
        rw [hsgr] at hok
        dsimp only at hok ⊢
        have hsgev : ∀ e ∈ ((create_security_group INBOUND_PORT env.sgenv
            (Function.update heap 1 natSGOutbound) none (natSGInbound prs)
            (some 1)).2.2.map NEvent.sg), ∃ se, e = NEvent.sg se := by
          intro e he
          obtain ⟨se, _, rfl⟩ := List.mem_map.mp he
          exact ⟨se, rfl⟩
        cases img with
        | none =>
          exact ⟨_, [NEvent.getNatImage], env.nat_image_id, hsgev, Or.inl rfl, rfl⟩
        | some i =>
          exact ⟨_, [], i, hsgev, Or.inr rfl, rfl⟩

theorem chain_lb_append {l1 l2 : List Nat} {lo : Nat} (m : Nat)
    (h1 : List.Chain' (fun a b => a ≤ b) l1) (hlb1 : ∀ x ∈ l1, lo ≤ x)
    (hub1 : ∀ x ∈ l1, x ≤ m) (h2 : List.Chain' (fun a b => a ≤ b) l2)
    (hlb2 : ∀ x ∈ l2, m ≤ x) (hlom : lo ≤ m) :
    List.Chain' (fun a b => a ≤ b) (l1 ++ l2) ∧ ∀ x ∈ l1 ++ l2, lo ≤ x :=
  ⟨chain'_le_append_of_bounds m h1 h2 hub1 hlb2,
   lower_bound_append hlb1 (fun x hx => le_trans hlom (hlb2 x hx))⟩

theorem chain_of_phase_segments (l2 l3 l6 l9 : List Nat)
    (h2 : ∀ x ∈ l2, x = 2) (h3 : l3 = [3] ∨ l3 = []) (h6 : ∀ x ∈ l6, x = 12)
    (h9 : ∀ x ∈ l9, x = 15) :
    List.Chain' (fun a b => a ≤ b)
      ([0, 1] ++ (l2 ++ (l3 ++ ([4, 5, 6, 7, 8, 9] ++
        ([10, 11] ++ (l6 ++ ([13] ++ ([14] ++ l9)))))))) := by
  have s9 : List.Chain' (fun a b => a ≤ b) l9 ∧ ∀ x ∈ l9, (15 : Nat) ≤ x :=
    ⟨chain'_le_of_const 15 l9 h9, fun x hx => le_of_eq (h9 x hx).symm⟩
  have s8 : List.Chain' (fun a b => a ≤ b) ([14] ++ l9) ∧
      ∀ x ∈ [14] ++ l9, (14 : Nat) ≤ x :=
    chain_lb_append 14 (by simp [List.chain'_cons, List.chain'_singleton]) (by decide) (by decide) s9.1
      (fun x hx => le_trans (by omega) (s9.2 x hx)) (by omega)
  have s7 : List.Chain' (fun a b => a ≤ b) ([13] ++ ([14] ++ l9)) ∧
      ∀ x ∈ [13] ++ ([14] ++ l9), (13 : Nat) ≤ x :=
    chain_lb_append 13 (by simp [List.chain'_cons, List.chain'_singleton]) (by decide) (by decide) s8.1
      (fun x hx => le_trans (by omega) (s8.2 x hx)) (by omega)
  have s6 : List.Chain' (fun a b => a ≤ b) (l6 ++ ([13] ++ ([14] ++ l9))) ∧
      ∀ x ∈ l6 ++ ([13] ++ ([14] ++ l9)), (12 : Nat) ≤ x :=
    chain_lb_append 12 (chain'_le_of_const 12 l6 h6)
      (fun x hx => le_of_eq (h6 x hx).symm)
      (fun x hx => le_of_eq (h6 x hx)) s7.1
      (fun x hx => le_trans (by omega) (s7.2 x hx)) (by omega)
  have s5 : List.Chain' (fun a b => a ≤ b)
      ([10, 11] ++ (l6 ++ ([13] ++ ([14] ++ l9)))) ∧
      ∀ x ∈ [10, 11] ++ (l6 ++ ([13] ++ ([14] ++ l9))), (10 : Nat) ≤ x :=
    chain_lb_append 11 (by simp [List.chain'_cons, List.chain'_singleton]) (by decide) (by decide) s6.1
      (fun x hx => le_trans (by omega) (s6.2 x hx)) (by omega)
  have s4 : List.Chain' (fun a b => a ≤ b)
      ([4, 5, 6, 7, 8, 9] ++ ([10, 11] ++ (l6 ++ ([13] ++ ([14] ++ l9))))) ∧
      ∀ x ∈ [4, 5, 6, 7, 8, 9] ++ ([10, 11] ++ (l6 ++ ([13] ++ ([14] ++ l9)))),
        (4 : Nat) ≤ x :=
    chain_lb_append 9 (by simp [List.chain'_cons, List.chain'_singleton]) (by decide) (by decide) s5.1
      (fun x hx => le_trans (by omega) (s5.2 x hx)) (by omega)
  have hl3 : List.Chain' (fun a b => a ≤ b) l3 ∧ (∀ x ∈ l3, (3 : Nat) ≤ x) ∧
      (∀ x ∈ l3, x ≤ 3) := by
    rcases h3 with h3 | h3 <;> rw [h3]
    · exact ⟨by simp [List.chain'_singleton], by decide, by decide⟩
    · exact ⟨List.chain'_nil, by simp, by simp⟩
  have s3 : List.Chain' (fun a b => a ≤ b)
      (l3 ++ ([4, 5, 6, 7, 8, 9] ++ ([10, 11] ++ (l6 ++ ([13] ++ ([14] ++ l9)))))) ∧
      ∀ x ∈ l3 ++ ([4, 5, 6, 7, 8, 9] ++ ([10, 11] ++ (l6 ++ ([13] ++ ([14] ++ l9))))),
        (3 : Nat) ≤ x :=
    chain_lb_append 3 hl3.1 hl3.2.1 hl3.2.2 s4.1
      (fun x hx => le_trans (by omega) (s4.2 x hx)) (by omega)
  have s2 : List.Chain' (fun a b => a ≤ b)
      (l2 ++ (l3 ++ ([4, 5, 6, 7, 8, 9] ++
        ([10, 11] ++ (l6 ++ ([13] ++ ([14] ++ l9))))))) ∧
      ∀ x ∈ l2 ++ (l3 ++ ([4, 5, 6, 7, 8, 9] ++
        ([10, 11] ++ (l6 ++ ([13] ++ ([14] ++ l9)))))), (2 : Nat) ≤ x :=
    chain_lb_append 2 (chain'_le_of_const 2 l2 h2)
      (fun x hx => le_of_eq (h2 x hx).symm)
      (fun x hx => le_of_eq (h2 x hx)) s3.1
      (fun x hx => le_trans (by omega) (s3.2 x hx)) (by omega)
  have s1 : List.Chain' (fun a b => a ≤ b)
      ([0, 1] ++ (l2 ++ (l3 ++ ([4, 5, 6, 7, 8, 9] ++
        ([10, 11] ++ (l6 ++ ([13] ++ ([14] ++ l9)))))))) ∧
      ∀ x ∈ [0, 1] ++ (l2 ++ (l3 ++ ([4, 5, 6, 7, 8, 9] ++
        ([10, 11] ++ (l6 ++ ([13] ++ ([14] ++ l9))))))), (0 : Nat) ≤ x :=
    chain_lb_append 1 (by simp [List.chain'_cons, List.chain'_singleton]) (by decide) (by decide) s2.1
      (fun x hx => le_trans (by omega) (s2.2 x hx)) (by omega)
  exact s1.1

set_option maxHeartbeats 1000000 in
/-- C6: on the normal (non-PERMANENT-shortcut) successful path,
`create_nat_instance` performs its AWS steps in the source order of
compute.py lines 294-382 — connect to EC2 and VPC, security-group stage,
NAT-image lookup, `create_instance`, `modify_instance_attribute`
(sourceDestCheck), `create_route_table`, the pending-wait polls, the
`0.0.0.0/0` route pointed at the new instance (`instances[0]`), the
private-subnet association (or re-association), and finally the cleanup —
and during cleanup it deletes exactly the route tables of the VPC that
have no associations and are not the main route table. -/
theorem create_nat_instance_orchestration_order (env : NatEnv) (prs : Subnet)
    (sgs : Option (List String)) (img : Option String)
    (INBOUND_PORT : String → Int) (heap : RuleHeap) (ret : NatReturn)
    (hmode : env.creation_mode_permanent = false)
    (hok : (create_nat_instance env prs sgs img INBOUND_PORT heap).1 =
      Except.ok (some ret)) :
    List.Chain' (fun a b => a ≤ b)
      (((create_nat_instance env prs sgs img INBOUND_PORT heap).2).map nEventPhase) ∧
    (∃ natId restIds, ret = NatReturn.single natId ∧
      env.cienv.refreshed_ids = natId :: restIds ∧
      NEvent.createRoute "0.0.0.0/0" natId ∈
        (create_nat_instance env prs sgs img INBOUND_PORT heap).2) ∧
    (NEvent.associateRouteTable prs.id env.route_table_id ∈
        (create_nat_instance env prs sgs img INBOUND_PORT heap).2 ∨
      ∃ a, NEvent.replaceRouteTableAssociation a env.route_table_id ∈
        (create_nat_instance env prs sgs img INBOUND_PORT heap).2) ∧
    (∃ main mrest, env.main_route_tables = main :: mrest ∧
      ∀ rid, (NEvent.deleteRouteTable rid ∈
          (create_nat_instance env prs sgs img INBOUND_PORT heap).2 ↔
        rid ∈ (env.route_tables_at_cleanup.filter
          (fun rt => rt.associations.isEmpty && !(rt.id == main.id))).map
          (fun rt => rt.id))) := by
  obtain ⟨sgEvents, imgEvents, imgId, hsgE, himgE, heq⟩ :=
    create_nat_instance_stage_shape env prs sgs img INBOUND_PORT heap ret hmode hok
  rw [heq] at hok ⊢
  obtain ⟨eids, waitEvents, assocEvent, natId, restIds, main, mrest, hret, href,
    hmain, hwaitE, hassocE, htr⟩ :=
    natInstanceRest_ok_shape env prs _ imgId ret hok
  rw [htr]
  refine ⟨?_, ⟨natId, restIds, hret, href, ?_⟩, ?_, ⟨main, mrest, hmain, ?_⟩⟩
  · have hph : nEventPhase assocEvent = 14 := by
      rcases hassocE with h | ⟨a, h⟩ <;> rw [h] <;> rfl
    simp only [List.map_append, List.map_cons, List.map_nil, hph,
      List.append_assoc]
    refine chain_of_phase_segments _ _ _ _ ?_ ?_ ?_ ?_
    · intro x hx
      obtain ⟨e, he, rfl⟩ := List.mem_map.mp hx
      obtain ⟨se, rfl⟩ := hsgE e he
      rfl
    · rcases himgE with h | h <;> rw [h]
      · exact Or.inl rfl
      · exact Or.inr rfl
    · intro x hx
      obtain ⟨e, he, rfl⟩ := List.mem_map.mp hx
      rw [hwaitE e he]
      rfl
    · intro x hx
      obtain ⟨e, he, rfl⟩ := List.mem_map.mp hx
      obtain ⟨rt, hrt, rfl⟩ := List.mem_map.mp he
      rfl
  · simp
  · rcases hassocE with h | ⟨a, h⟩
    · subst h
      exact Or.inl (by simp)
    · subst h
      exact Or.inr ⟨a, by simp⟩
  · intro rid
    constructor
    · intro hmem
      rcases List.mem_append.mp hmem with hq | hcl
      · exfalso
        simp only [List.mem_append] at hq
        rcases hq with ((((((hb | hs) | hi) | hc) | hm) | hw) | hr) | ha
        · simp at hb
        · obtain ⟨se, hse⟩ := hsgE _ hs
          exact NEvent.noConfusion hse
        · rcases himgE with h | h <;> rw [h] at hi <;> simp at hi
        · obtain ⟨ce, hce1, hce2⟩ := List.mem_map.mp hc
          exact NEvent.noConfusion hce2
        · simp at hm
        · have h12 := hwaitE _ hw
          exact NEvent.noConfusion h12
        · simp at hr
        · rw [List.mem_singleton] at ha
          rcases hassocE with h | ⟨a2, h⟩ <;> rw [h] at ha <;> exact NEvent.noConfusion ha
      · obtain ⟨rt, hrt, heq2⟩ := List.mem_map.mp hcl
        have h' : NEvent.deleteRouteTable rt.id = NEvent.deleteRouteTable rid := heq2
        exact List.mem_map.mpr ⟨rt, hrt, NEvent.deleteRouteTable.inj h'⟩
    · intro hrid
      obtain ⟨rt, hrt, hid⟩ := List.mem_map.mp hrid
      apply List.mem_append.mpr
      refine Or.inr (List.mem_map.mpr ⟨rt, hrt, ?_⟩)
      show NEvent.deleteRouteTable rt.id = NEvent.deleteRouteTable rid
      rw [show rt.id = rid from hid]

/-- A concrete oracle environment on which `create_nat_instance`
succeeds end to end. -/
def natWitnessEnv : NatEnv :=
  ⟨false, [], sampleSGEnv (fun _ => TagAttempt.success true), "ami-nat",
    sampleCIEnv (fun _ => TagAttempt.success true), "rtb-new",
    fun _ => "running", 1, [], [⟨"rtb-empty", []⟩], [⟨"rtb-main", []⟩]⟩

/-- A concrete private subnet for the C6 witness. -/
def natWitnessSubnet : Subnet := ⟨"subnet-1", "us-east-1a".toList, "10.0.1.0/24".toList⟩

/-- Witness for C6: the orchestration-order theorem applied to a concrete
successful `create_nat_instance` run. -/
theorem create_nat_instance_orchestration_order_witness :
    natWitnessEnv.creation_mode_permanent = false ∧
    (create_nat_instance natWitnessEnv natWitnessSubnet (some ["sg-1"]) (some "ami-9")
        (fun _ => 5432) (fun _ => [])).1 =
      Except.ok (some (NatReturn.single "i-1")) ∧
    (List.Chain' (fun a b => a ≤ b)
      (((create_nat_instance natWitnessEnv natWitnessSubnet (some ["sg-1"]) (some "ami-9")
          (fun _ => 5432) (fun _ => [])).2).map nEventPhase) ∧
    (∃ natId restIds, NatReturn.single "i-1" = NatReturn.single natId ∧
      natWitnessEnv.cienv.refreshed_ids = natId :: restIds ∧
      NEvent.createRoute "0.0.0.0/0" natId ∈
        (create_nat_instance natWitnessEnv natWitnessSubnet (some ["sg-1"]) (some "ami-9")
          (fun _ => 5432) (fun _ => [])).2) ∧
    (NEvent.associateRouteTable natWitnessSubnet.id natWitnessEnv.route_table_id ∈
        (create_nat_instance natWitnessEnv natWitnessSubnet (some ["sg-1"]) (some "ami-9")
          (fun _ => 5432) (fun _ => [])).2 ∨
      ∃ a, NEvent.replaceRouteTableAssociation a natWitnessEnv.route_table_id ∈
        (create_nat_instance natWitnessEnv natWitnessSubnet (some ["sg-1"]) (some "ami-9")
          (fun _ => 5432) (fun _ => [])).2) ∧
    (∃ main mrest, natWitnessEnv.main_route_tables = main :: mrest ∧
      ∀ rid, (NEvent.deleteRouteTable rid ∈
          (create_nat_instance natWitnessEnv natWitnessSubnet (some ["sg-1"]) (some "ami-9")
            (fun _ => 5432) (fun _ => [])).2 ↔
        rid ∈ (natWitnessEnv.route_tables_at_cleanup.filter
          (fun rt => rt.associations.isEmpty && !(rt.id == main.id))).map
          (fun rt => rt.id)))) :=
  ⟨rfl, rfl, create_nat_instance_orchestration_order natWitnessEnv natWitnessSubnet
    (some ["sg-1"]) (some "ami-9") (fun _ => 5432) (fun _ => [])
    (NatReturn.single "i-1") rfl rfl⟩
